import Mathlib

/-!
Verification development for the icons repository: a shallow embedding of
the Version Store manager (`IconSetManager`, src/unnamed/part_011), the
file-system storage layer (`StorageLayer.ts`) modelled as an explicit
key-value state, the SVG canonicalizer (`SVGParser`, embedded source in
`SVGParser.test.ts`), the HTTP cache-header logic (`CacheManager.ts`) and
the external-sync reconciler (`FigmaIntegrator.ts`).  Stateful TypeScript
methods become pure functions with explicit state passing; `Date.now()`
becomes an explicit `now : Nat` parameter; thrown exceptions become
`Except`-style results paired with the state reached at the throw point.
-/

namespace Icons

/-! ## JavaScript primitive semantics -/

/-- JavaScript whitespace characters relevant to `\s` for the ASCII
inputs handled by this code base. -/
def isJsWhitespace (c : Char) : Bool :=
  c = ' ' || c = '\t' || c = '\n' || c = '\r' || c = '\x0b' || c = '\x0c'

/-- Value of a list of decimal digit characters. -/
def digitsToNat (ds : List Char) : Nat :=
  ds.foldl (fun a c => a * 10 + (c.toNat - 48)) 0

/-- Parse a maximal nonempty run of leading decimal digits (`none` when
the run is empty), as JavaScript `parseInt` does after sign handling. -/
def parseLeadingDigits (cs : List Char) : Option Nat :=
  let ds := cs.takeWhile Char.isDigit
  if ds.isEmpty then none else some (digitsToNat ds)

/-- JavaScript `parseInt(s, 10)`: skip leading whitespace, optional sign,
then a maximal digit run; `none` models `NaN`. -/
def jsParseInt (s : String) : Option Int :=
  let cs := s.toList.dropWhile isJsWhitespace
  match cs with
  | '-' :: rest => (parseLeadingDigits rest).map (fun n => -(n : Int))
  | '+' :: rest => (parseLeadingDigits rest).map (fun n => (n : Int))
  | rest => (parseLeadingDigits rest).map (fun n => (n : Int))

/-- Unsigned part of JavaScript `parseFloat` (decimal forms only; the
exponent forms never occur in the SVG attribute values this code meets). -/
def parseUnsignedFloat (cs : List Char) : Option Rat :=
  let ip := cs.takeWhile Char.isDigit
  let rest := cs.dropWhile Char.isDigit
  match rest with
  | '.' :: frac =>
    let fp := frac.takeWhile Char.isDigit
    if ip.isEmpty && fp.isEmpty then none
    else some ((digitsToNat ip : Rat) + (digitsToNat fp : Rat) / ((10 : Rat) ^ fp.length))
  | _ => if ip.isEmpty then none else some (digitsToNat ip : Rat)

/-- JavaScript `parseFloat`: skip whitespace, optional sign, decimal
number; `none` models `NaN`. -/
def jsParseFloat (s : String) : Option Rat :=
  let cs := s.toList.dropWhile isJsWhitespace
  match cs with
  | '-' :: rest => (parseUnsignedFloat rest).map (fun q => -q)
  | '+' :: rest => parseUnsignedFloat rest
  | rest => parseUnsignedFloat rest

/-- JavaScript `a || b` for an optional string `a` (absent and empty are
falsy) with a string fallback. -/
def jsOrStr (a : Option String) (b : String) : String :=
  match a with
  | some s => if s = "" then b else s
  | none => b

/-- ASCII lower-casing of a string, as `String.prototype.toLowerCase`
acts on the ASCII names this code handles. -/
def jsToLowerStr (s : String) : String :=
  String.mk (s.toList.map Char.toLower)

/-- Bool-valued contiguous-sublist test used to model JavaScript
`String.prototype.includes` and regex substring tests. -/
def listContainsSub {α : Type} [DecidableEq α] : List α → List α → Bool
  | [], pat => pat.isEmpty
  | a :: t, pat => pat.isPrefixOf (a :: t) || listContainsSub t pat

/-- `strContains hay pat` models JavaScript `hay.includes(pat)`. -/
def strContains (hay pat : String) : Bool :=
  listContainsSub hay.toList pat.toList

/-- JavaScript `String.prototype.trim`. -/
def jsTrim (s : String) : String :=
  String.mk (((s.toList.dropWhile isJsWhitespace).reverse.dropWhile isJsWhitespace).reverse)

/-- JavaScript `String.prototype.startsWith`. -/
def strStartsWith (s pat : String) : Bool :=
  pat.toList.isPrefixOf s.toList

/-- JavaScript `String.prototype.endsWith`. -/
def strEndsWith (s pat : String) : Bool :=
  pat.toList.isSuffixOf s.toList

/-- JavaScript `version.split('.')`. -/
def splitOnDotAux : List Char → List Char → List String
  | [], cur => [String.mk cur.reverse]
  | c :: t, cur =>
    if c = '.' then String.mk cur.reverse :: splitOnDotAux t []
    else splitOnDotAux t (c :: cur)

/-- JavaScript `version.split('.')`. -/
def jsSplitDot (s : String) : List String := splitOnDotAux s.toList []

instance {ε α : Type} [DecidableEq ε] [DecidableEq α] : DecidableEq (Except ε α)
  | .ok a, .ok b =>
    if h : a = b then .isTrue (by rw [h])
    else .isFalse (fun hh => h (Except.ok.inj hh))
  | .ok _, .error _ => .isFalse (fun hh => Except.noConfusion hh)
  | .error _, .ok _ => .isFalse (fun hh => Except.noConfusion hh)
  | .error a, .error b =>
    if h : a = b then .isTrue (by rw [h])
    else .isFalse (fun hh => h (Except.error.inj hh))

/-! ## Association-list state primitives

The file-system backend (`StorageLayer.ts`) maps a path-shaped key to a
JSON document; writes replace the file at that key and reads return the
parsed file or `null`.  We model each directory family as an association
list with exactly these replace/read semantics. -/

/-- Read the value stored at `k`, the parsed-file-or-null read. -/
def agetKV {κ ν : Type} [DecidableEq κ] : List (κ × ν) → κ → Option ν
  | [], _ => none
  | (k', v) :: t, k => if k' = k then some v else agetKV t k

/-- Write `v` at key `k`, replacing any previous file at that path. -/
def asetKV {κ ν : Type} [DecidableEq κ] : List (κ × ν) → κ → ν → List (κ × ν)
  | [], k, v => [(k, v)]
  | (k', v') :: t, k, v => if k' = k then (k, v) :: t else (k', v') :: asetKV t k v

theorem agetKV_asetKV_self {κ ν : Type} [DecidableEq κ] (l : List (κ × ν)) (k : κ) (v : ν) :
    agetKV (asetKV l k v) k = some v := by
  induction l with
  | nil => simp [asetKV, agetKV]
  | cons h t ih =>
    obtain ⟨k', v'⟩ := h
    by_cases hk : k' = k
    · simp [asetKV, hk, agetKV]
    · simp [asetKV, hk, agetKV, ih]

theorem agetKV_asetKV_ne {κ ν : Type} [DecidableEq κ] (l : List (κ × ν)) (k k' : κ) (v : ν)
    (hne : k ≠ k') : agetKV (asetKV l k v) k' = agetKV l k' := by
  induction l with
  | nil => simp [asetKV, agetKV, hne]
  | cons h t ih =>
    obtain ⟨k0, v0⟩ := h
    by_cases hk : k0 = k
    · subst hk
      simp [asetKV, agetKV, hne]
    · simp [asetKV, hk, agetKV]
      by_cases hk' : k0 = k'
      · simp [hk']
      · simp [hk', ih]

/-! ## Data model (`types/icon.ts`) -/

/-- `IconData`: one icon's Iconify payload.  Numeric dimensions are
modelled as rationals (`parseFloat` results). -/
structure IconData where
  body : String
  width : Option Rat := none
  height : Option Rat := none
  left : Option Rat := none
  top : Option Rat := none
  rotate : Option Nat := none
  hFlip : Option Bool := none
  vFlip : Option Bool := none
deriving DecidableEq, Repr

/-- `IconSetMetadata` (field `prefix` renamed `nsPrefix`: `prefix` is a
Lean keyword). -/
structure IconSetMetadata where
  nsPrefix : String
  name : String
  total : Nat
  version : String
  author : Option String := none
  license : Option String := none
  lastModified : Nat
deriving DecidableEq, Repr

/-- The observable state of a `StorageLayer` base directory: current
icons keyed by `(namespace, name)`, version files keyed by
`((namespace, name), versionId)`, and per-namespace metadata files. -/
structure StoreState where
  icons : List ((String × String) × IconData)
  versions : List (((String × String) × String) × IconData)
  metadata : List (String × IconSetMetadata)
deriving DecidableEq, Repr

/-- The store with no files at all. -/
def emptyStore : StoreState := ⟨[], [], []⟩

/-! ## StorageLayer operations (`storage/StorageLayer.ts`) -/

/-- `StorageLayer.readIcon`: parsed icon file or null. -/
def readIcon (st : StoreState) (ns name : String) : Option IconData :=
  agetKV st.icons (ns, name)

/-- `StorageLayer.saveIcon`: write (replacing) the icon file. -/
def saveIcon (st : StoreState) (ns name : String) (d : IconData) : StoreState :=
  { st with icons := asetKV st.icons (ns, name) d }

/-- `StorageLayer.listIcons`: names of icon files in the namespace. -/
def listIcons (st : StoreState) (ns : String) : List String :=
  st.icons.filterMap (fun p => if p.1.1 = ns then some p.1.2 else none)

/-- `StorageLayer.readIconSetMetadata`. -/
def readIconSetMetadata (st : StoreState) (ns : String) : Option IconSetMetadata :=
  agetKV st.metadata ns

/-- `StorageLayer.saveIconSetMetadata`. -/
def saveIconSetMetadata (st : StoreState) (ns : String) (m : IconSetMetadata) : StoreState :=
  { st with metadata := asetKV st.metadata ns m }

/-- `StorageLayer.saveIconVersion`: write a version file for an icon. -/
def saveIconVersion (st : StoreState) (ns name versionId : String) (d : IconData) : StoreState :=
  { st with versions := asetKV st.versions ((ns, name), versionId) d }

/-- `StorageLayer.listIconVersions`: version ids present for an icon
(empty when the directory does not exist). -/
def listIconVersions (st : StoreState) (ns name : String) : List String :=
  st.versions.filterMap (fun p => if p.1.1 = (ns, name) then some p.1.2 else none)

/-- `StorageLayer.readIconVersion`: parsed version file or null. -/
def readIconVersion (st : StoreState) (ns name versionId : String) : Option IconData :=
  agetKV st.versions ((ns, name), versionId)

/-! ## IconSetManager (`src/unnamed/part_011`)

The manager is parameterized by its injected `SVGParser` (constructor
argument), modelled as a function `parse : σ → Except ε IconData`; the
svg payload type `σ` and parse-error type `ε` stay abstract here and are
instantiated with the concrete parser model below.  `Date.now()` is an
explicit `now` parameter.  A method that throws is modelled as returning
`.error` together with the state reached at the throw point (earlier
writes of the same call persist, as on the file system). -/

/-- Error thrown by `addIcon`: a `ConflictError` (with its message) or a
propagated parser error. -/
inductive AddIconError (ε : Type) where
  | conflict (msg : String)
  | parseFailed (e : ε)
deriving DecidableEq, Repr

/-- The `ConflictError` message built in `addIcon`. -/
def conflictMessage (ns name : String) : String :=
  "Icon \"" ++ name ++ "\" already exists in namespace \"" ++ ns ++
    "\". Use overwrite strategy to replace it."

/-- Error thrown by `rollbackToVersion` when the version file is absent. -/
inductive RollbackError where
  | versionNotFound (versionId : String)
deriving DecidableEq, Repr

/-- Conflict-strategy resolution in `addIcon`:
`options?.conflictStrategy || process.env.ICON_CONFLICT_STRATEGY || 'reject'`. -/
def resolveStrategy (opt env : Option String) : String :=
  jsOrStr opt (jsOrStr env "reject")

/-- `IconSetManager.saveVersion`: version id `v` + `Date.now()`, then a
version-file write.  Returns the new state and the version id. -/
def saveVersion (st : StoreState) (ns name : String) (d : IconData) (now : Nat) :
    StoreState × String :=
  let versionId := "v" ++ toString now
  (saveIconVersion st ns name versionId d, versionId)

/-- `IconSetManager.incrementVersion`: bump the patch component of a
three-part version, falling back to a timestamp-derived version. -/
def incrementVersion (currentVersion : String) (now : Nat) : String :=
  let parts := jsSplitDot currentVersion
  if parts.length = 3 then
    match jsParseInt (parts.getD 2 "") with
    | some patch =>
        parts.getD 0 "" ++ "." ++ parts.getD 1 "" ++ "." ++ toString (patch + 1)
    | none => "1.0." ++ toString now
  else "1.0." ++ toString now

/-- `IconSetManager.updateMetadata`: recompute `total`, advance
`version` (or start at `1.0.0`), stamp `lastModified`. -/
def updateMetadata (st : StoreState) (ns : String) (now : Nat) : StoreState :=
  let total := (listIcons st ns).length
  let existing := readIconSetMetadata st ns
  let version := match existing with
    | some m => incrementVersion m.version now
    | none => "1.0.0"
  let md : IconSetMetadata :=
    { nsPrefix := ns
      name := jsOrStr (existing.map (fun m => m.name)) ns
      total := total
      version := version
      author := existing.bind (fun m => m.author)
      license := existing.bind (fun m => m.license)
      lastModified := now }
  saveIconSetMetadata st ns md

/-- `IconSetManager.addIcon`: conflict handling against the existing
icon, then parse, save, and metadata update. -/
def addIcon {σ ε : Type} (parse : σ → Except ε IconData) (st : StoreState)
    (ns name : String) (svg : σ) (opt env : Option String) (now : Nat) :
    StoreState × Except (AddIconError ε) Unit :=
  let existingIcon := readIcon st ns name
  let conflictStrategy := resolveStrategy opt env
  match existingIcon with
  | some ex =>
    if conflictStrategy = "reject" then
      (st, .error (.conflict (conflictMessage ns name)))
    else
      let st1 := if conflictStrategy = "overwrite" then (saveVersion st ns name ex now).1 else st
      match parse svg with
      | .error e => (st1, .error (.parseFailed e))
      | .ok iconData =>
        (updateMetadata (saveIcon st1 ns name iconData) ns now, .ok ())
  | none =>
    match parse svg with
    | .error e => (st, .error (.parseFailed e))
    | .ok iconData =>
      (updateMetadata (saveIcon st ns name iconData) ns now, .ok ())

/-- `IconSetManager.rollbackToVersion`: read the target version (throw
when absent), snapshot the current icon if present, restore the target
as current, update metadata. -/
def rollbackToVersion (st : StoreState) (ns name versionId : String) (now : Nat) :
    StoreState × Except RollbackError Unit :=
  match readIconVersion st ns name versionId with
  | none => (st, .error (.versionNotFound versionId))
  | some versionData =>
    let st1 := match readIcon st ns name with
      | some currentIcon => (saveVersion st ns name currentIcon now).1
      | none => st
    (updateMetadata (saveIcon st1 ns name versionData) ns now, .ok ())

/-- One entry of `getVersionHistory`'s result. -/
structure VersionEntry where
  id : String
  timestamp : Int
  data : IconData
deriving DecidableEq, Repr

/-- Timestamp extracted from a version id: `parseInt(versionId.substring(1), 10)`,
`0` when that is `NaN`. -/
def versionTimestamp (versionId : String) : Int :=
  (jsParseInt (versionId.drop 1)).getD 0

/-- `IconSetManager.getVersionHistory`: load every listed version,
attach the timestamp parsed from its id, sort newest first (stable sort
with the comparator `b.timestamp - a.timestamp`). -/
def getVersionHistory (st : StoreState) (ns name : String) : List VersionEntry :=
  let versionIds := listIconVersions st ns name
  let entries := versionIds.filterMap (fun versionId =>
    (readIconVersion st ns name versionId).map (fun d =>
      { id := versionId, timestamp := versionTimestamp versionId, data := d }))
  entries.mergeSort (fun a b => decide (b.timestamp ≤ a.timestamp))

/-- `IconSetManager.loadIconSet`'s icon map: every listed icon with its
readable data (`prefix` and `lastModified` omitted here). -/
def loadIconSetIcons (st : StoreState) (ns : String) : List (String × IconData) :=
  (listIcons st ns).filterMap (fun n => (readIcon st ns n).map (fun d => (n, d)))

/-! ## SVG canonicalizer (`SVGParser`, source embedded in `parsers/SVGParser.test.ts`)

The parser works on raw SVG strings with regular expressions whose
patterns are all tag-local (`<tag attrs>` with `name="value"` attribute
text).  We embed an SVG input as a structured document — root attributes
plus a flat list of inner elements in document order — with a canonical
rendering `<tag n1="v1" .../>` per element, and translate each regex
exactly at that granularity (the detection regexes require the character
after the tag name to be whitespace or `>`, which the rendering yields
precisely when the element has at least one attribute).  String-level
checks of the source (`includes`, the `validateSVG` tag counting) are
kept at string level over the rendering. -/

/-- One `name="value"` attribute. -/
structure SvgAttr where
  name : String
  value : String
deriving DecidableEq, Repr

/-- One inner element: tag plus attributes, rendered self-closing. -/
structure SvgElem where
  tag : String
  attrs : List SvgAttr
deriving DecidableEq, Repr

/-- A whole SVG input: root `<svg ...>` attributes and inner elements. -/
structure SvgDoc where
  rootAttrs : List SvgAttr
  body : List SvgElem
deriving DecidableEq, Repr

/-- Render ` name="value"` (with its leading space). -/
def renderAttr (a : SvgAttr) : String :=
  " " ++ a.name ++ "=\"" ++ a.value ++ "\""

/-- Render an attribute list. -/
def renderAttrs : List SvgAttr → String
  | [] => ""
  | a :: t => renderAttr a ++ renderAttrs t

/-- Render one inner element, self-closing. -/
def renderElem (e : SvgElem) : String :=
  "<" ++ e.tag ++ renderAttrs e.attrs ++ "/>"

/-- Render the inner content (what `extractBody` returns). -/
def renderBody : List SvgElem → String
  | [] => ""
  | e :: t => renderElem e ++ renderBody t

/-- Render the whole document. -/
def renderDoc (d : SvgDoc) : String :=
  "<svg" ++ renderAttrs d.rootAttrs ++ ">" ++ renderBody d.body ++ "</svg>"

/-- Does `<svg` followed by whitespace or `>` start here?  (One position
of the `/<svg[\s>]/g` scan.) -/
def matchOpenSvgAt : List Char → Bool
  | '<' :: 's' :: 'v' :: 'g' :: c :: _ => isJsWhitespace c || c = '>'
  | _ => false

/-- Number of matches of `/<svg[\s>]/g`. -/
def countOpenSvg : List Char → Nat
  | [] => 0
  | c :: t => (if matchOpenSvgAt (c :: t) then 1 else 0) + countOpenSvg t

/-- Does `</svg>` start here? -/
def matchCloseSvgAt (cs : List Char) : Bool :=
  "</svg>".toList.isPrefixOf cs

/-- Number of matches of `/<\/svg>/g`. -/
def countCloseSvg : List Char → Nat
  | [] => 0
  | c :: t => (if matchCloseSvgAt (c :: t) then 1 else 0) + countCloseSvg t

/-- `SVGParser.validateSVG` on the raw string: nonempty after trim,
starts with `<`, contains `<svg`, and balanced nonzero `<svg[\s>]` /
`</svg>` counts. -/
def validateSVG (svgContent : String) : Bool :=
  let trimmed := jsTrim svgContent
  ¬ trimmed = "" && strStartsWith trimmed "<" && strContains trimmed "<svg" &&
    (let o := countOpenSvg trimmed.toList
     let c := countCloseSvg trimmed.toList
     ¬ o = 0 && o = c)

/-- All attributes of the document in rendering order: root attributes,
then each inner element's attributes. -/
def allDocAttrs (d : SvgDoc) : List SvgAttr :=
  d.rootAttrs ++ d.body.foldr (fun (e : SvgElem) (acc : List SvgAttr) => e.attrs ++ acc) []

/-- `svgContent.includes('stroke=')` at document level: in the rendering
`name="value"`, `stroke=` occurs exactly where an attribute name ends in
`stroke` (or, degenerately, a value embeds the text `stroke=`). -/
def docHasStrokeEq (d : SvgDoc) : Bool :=
  (allDocAttrs d).any
    (fun (a : SvgAttr) => strEndsWith a.name "stroke" || strContains a.value "stroke=")

/-- Tags rewritten by the fill-backfill passes (the `<path ...>` pass
plus the `shapeElements` loop), all matched case-insensitively. -/
def backfillTags : List String :=
  ["path", "circle", "rect", "ellipse", "polygon", "polyline", "line"]

/-- The `[^>]*stroke[^>]*?` part: the serialized attribute text contains
`stroke` (in a name — `stroke`, `stroke-width`, ... — or inside a value). -/
def attrsTextContainsStroke (attrs : List SvgAttr) : Bool :=
  attrs.any (fun a => strContains a.name "stroke" || strContains a.value "stroke")

/-- The `/fill\s*=/.test(attrs)` check (case-sensitive): an attribute
name ending in `fill` (or a value embedding `fill=`). -/
def attrsHaveFillDecl (attrs : List SvgAttr) : Bool :=
  attrs.any (fun a => strEndsWith a.name "fill" || strContains a.value "fill=")

/-- One element under the backfill passes: a backfill tag (the `\s+`
after the tag name requires at least one attribute) whose attribute text
mentions `stroke` but declares no fill gets `fill="none"` prepended. -/
def backfillElem (e : SvgElem) : SvgElem :=
  if backfillTags.contains (jsToLowerStr e.tag) && ¬ e.attrs.isEmpty &&
      attrsTextContainsStroke e.attrs && ¬ attrsHaveFillDecl e.attrs then
    { e with attrs := ⟨"fill", "none"⟩ :: e.attrs }
  else e

/-- Is this value protected from colour rewriting?  The negative
lookahead `(?!none|currentColor)` with the `i` flag: any value beginning
with `none` or `currentColor`, case-insensitively. -/
def colorValueProtected (v : String) : Bool :=
  strStartsWith (jsToLowerStr v) "none" || strStartsWith (jsToLowerStr v) "currentcolor"

/-- One attribute under `replaceColorsWithCurrentColor`: a
`stroke="..."` or `fill="..."` occurrence (case-insensitive, attribute
names ending in `stroke`/`fill`) whose value is not protected becomes
`currentColor`. -/
def replaceColorAttr (a : SvgAttr) : SvgAttr :=
  if strEndsWith (jsToLowerStr a.name) "stroke" && ¬ colorValueProtected a.value then
    { a with value := "currentColor" }
  else if strEndsWith (jsToLowerStr a.name) "fill" && ¬ colorValueProtected a.value then
    { a with value := "currentColor" }
  else a

/-- `replaceColorsWithCurrentColor` over the whole document. -/
def replaceColorsWithCurrentColor (d : SvgDoc) : SvgDoc :=
  { rootAttrs := d.rootAttrs.map replaceColorAttr
    body := d.body.map (fun e => { e with attrs := e.attrs.map replaceColorAttr }) }

/-- `SVGParser.optimizeSVG`, parameterized by the external `svgo`
`optimize` call (`.error` models a thrown exception): stroke-based input
skips svgo and gets backfill + colour rewriting; otherwise svgo output
gets colour rewriting, and a svgo failure returns the original input. -/
def optimizeSVG (svgo : SvgDoc → Except String SvgDoc) (d : SvgDoc) : SvgDoc :=
  if docHasStrokeEq d then
    replaceColorsWithCurrentColor { d with body := d.body.map backfillElem }
  else
    match svgo d with
    | .ok result => replaceColorsWithCurrentColor result
    | .error _ => d

/-- The renderable-primitive tags checked by `extractMetadata`. -/
def renderablePrimTags : List String :=
  ["path", "circle", "rect", "polygon", "polyline", "line", "ellipse"]

/-- `extractMetadata`'s `hasValidPath`: some element matches one of
`/<path[\s>]/ ... /<ellipse[\s>]/` (case-sensitive); in the rendering the
character after the tag name is a space exactly when the element has an
attribute, and `/` — no match — otherwise. -/
def hasValidPath (d : SvgDoc) : Bool :=
  d.body.any (fun e => renderablePrimTags.contains e.tag && ¬ e.attrs.isEmpty)

/-- Does the document contain a renderable primitive tag at all (the
spec's wording, for comparison with `hasValidPath`)? -/
def hasPrimitiveTag (d : SvgDoc) : Bool :=
  d.body.any (fun e => renderablePrimTags.contains e.tag)

/-- First attribute value for the metadata regexes `viewBox=["']([^"']+)["']`
etc.: scanning the rendering, the first attribute (root first, then inner
elements in order) whose name ends with the pattern name and whose value
is nonempty (`[^"']+` needs at least one character). -/
def findFirstAttrValue (d : SvgDoc) (patName : String) : Option String :=
  ((allDocAttrs d).find?
    (fun (a : SvgAttr) => strEndsWith a.name patName && ¬ a.value = "")).map
      (fun (a : SvgAttr) => a.value)

/-- JavaScript `str.split(/\s+/)` (leading/trailing whitespace produce
empty fragments, runs collapse); the flag records being inside a
whitespace run whose fragment is already emitted. -/
def splitWsCore : List Char → List Char → Bool → List String
  | [], cur, _ => [String.mk cur.reverse]
  | c :: t, cur, inSep =>
    if isJsWhitespace c then
      if inSep then splitWsCore t cur true
      else String.mk cur.reverse :: splitWsCore t [] true
    else splitWsCore t (c :: cur) false

/-- `viewBox.split(/\s+/)`. -/
def jsSplitWs (s : String) : List String := splitWsCore s.toList [] false

/-- `metadata.width.replace(/[^0-9.]/g, '')`. -/
def keepDigitsAndDot (s : String) : String :=
  String.mk (s.toList.filter (fun c => c.isDigit || c = '.'))

/-- JavaScript truthiness of a numeric option (`undefined`/`NaN` as
`none`; `0` is falsy). -/
def jsNumFalsy (x : Option Rat) : Bool :=
  match x with
  | none => true
  | some v => v = 0

/-- Dimension resolution of `parseSVG`: viewBox parts 2/3 first, then
the width/height attributes (stripped to digits and dots), each slot
falling through when falsy. -/
def resolveDim (viewBoxPart : Option Rat) (attrValue : Option String) : Option Rat :=
  let first := viewBoxPart
  if jsNumFalsy first then
    match attrValue with
    | some s =>
      match jsParseFloat (keepDigitsAndDot s) with
      | some v => some v
      | none => first
    | none => first
  else first

/-- Keep a dimension only when truthy and a number
(`if (width && !isNaN(width)) iconData.width = width`). -/
def keepTruthyDim (x : Option Rat) : Option Rat :=
  if jsNumFalsy x then none else x

/-- Errors of `parseSVG` (`SVGParseError` instances by message). -/
inductive SvgParseError where
  | invalidFormat
  | noRenderableContent
deriving DecidableEq, Repr

/-- `SVGParser.parseSVG`: validate, optimize, require renderable
content, resolve dimensions, and extract the inner body. -/
def parseSVG (svgo : SvgDoc → Except String SvgDoc) (d : SvgDoc) :
    Except SvgParseError IconData :=
  if ¬ validateSVG (renderDoc d) then .error .invalidFormat
  else
    let optimizedSVG := optimizeSVG svgo d
    if ¬ hasValidPath optimizedSVG then .error .noRenderableContent
    else
      let viewBox := findFirstAttrValue optimizedSVG "viewBox"
      let widthAttr := findFirstAttrValue optimizedSVG "width"
      let heightAttr := findFirstAttrValue optimizedSVG "height"
      let vbParts := match viewBox with
        | some vb => jsSplitWs vb
        | none => []
      let vbWidth := if vbParts.length = 4 then jsParseFloat (vbParts.getD 2 "") else none
      let vbHeight := if vbParts.length = 4 then jsParseFloat (vbParts.getD 3 "") else none
      let width := resolveDim vbWidth widthAttr
      let height := resolveDim vbHeight heightAttr
      .ok { body := renderBody optimizedSVG.body
            width := keepTruthyDim width
            height := keepTruthyDim height }

/-! ## CacheManager (`cache/CacheManager.ts`)

`getCacheHeaders` is modelled with the md5 hash and `JSON.stringify` of
a cached icon set as parameters (external `crypto`/JSON machinery); the
`Cache-Control` computation, the ETag shape, the fallback payload and
the `lastModified` fallback are embedded directly. -/

/-- The cached-collection payload relevant to `getCacheHeaders`. -/
structure IconSetModel where
  nsPrefix : String
  icons : List (String × IconData)
  lastModified : Option Nat := none
deriving DecidableEq, Repr

/-- The headers returned by `getCacheHeaders` (`Last-Modified` kept in
epoch milliseconds; `toUTCString` is presentation only). -/
structure CacheHeaders where
  cacheControl : String
  etag : String
  lastModifiedMs : Nat
deriving DecidableEq, Repr

/-- The constructor's default TTL (24 hours in seconds). -/
def defaultCacheTtl : Nat := 86400

/-- `JSON.stringify({ namespace, timestamp })` for the ETag fallback. -/
def fallbackEtagPayload (ns : String) (now : Nat) : String :=
  "\x7b\"namespace\":\"" ++ ns ++ "\",\"timestamp\":" ++ toString now ++ "\x7d"

/-- `CacheManager.getCacheHeaders` for a manager constructed with `ttl`
seconds, given the namespace's cached icon set (or `none`). -/
def getCacheHeaders (hashHex : String → String) (stringify : IconSetModel → String)
    (ttl : Nat) (ns : String) (isDevelopment : Bool) (cached : Option IconSetModel)
    (now : Nat) : CacheHeaders :=
  let etag := match cached with
    | some iconSet => "\"" ++ hashHex (stringify iconSet) ++ "\""
    | none => "\"" ++ hashHex (fallbackEtagPayload ns now) ++ "\""
  let lastModified := match cached with
    | some iconSet =>
      match iconSet.lastModified with
      | some t => if t = 0 then now else t
      | none => now
    | none => now
  let cacheControl :=
    if isDevelopment then "no-cache, no-store, must-revalidate"
    else "public, max-age=" ++ toString ttl ++ ", immutable"
  { cacheControl := cacheControl, etag := etag, lastModifiedMs := lastModified }

/-! ## FigmaIntegrator (`integrations/FigmaIntegrator.ts`)

Remote calls are modelled by oracles: `executeWithRetry` takes the
outcome of each attempt as a function of the attempt number, and the
sync loop takes a component-export oracle.  Axios errors are reduced to
the three observations `categorizeError` inspects. -/

/-- `FigmaErrorType`. -/
inductive FigmaErrorType where
  | networkError
  | timeoutError
  | apiError
  | authenticationError
  | notFoundError
  | rateLimitError
  | unknownError
deriving DecidableEq, Repr

/-- What `categorizeError` observes of a thrown error: whether axios
recognizes it, whether it is a timeout (`ECONNABORTED` code or a message
mentioning `timeout`), and the response status if a response arrived. -/
structure JsError where
  isAxiosError : Bool
  isTimeout : Bool
  responseStatus : Option Nat
deriving DecidableEq, Repr

/-- `FigmaIntegrator.categorizeError`. -/
def categorizeError (e : JsError) : FigmaErrorType :=
  if e.isAxiosError then
    if e.isTimeout then .timeoutError
    else
      match e.responseStatus with
      | none => .networkError
      | some status =>
        if status = 401 || status = 403 then .authenticationError
        else if status = 404 then .notFoundError
        else if status = 429 then .rateLimitError
        else .apiError
  else .unknownError

/-- `FigmaIntegrator.isRetryableError`. -/
def isRetryableError (t : FigmaErrorType) : Bool :=
  [FigmaErrorType.networkError, FigmaErrorType.timeoutError,
    FigmaErrorType.rateLimitError, FigmaErrorType.apiError].contains t

/-- `RetryConfig`. -/
structure RetryConfig where
  maxRetries : Nat
  initialDelayMs : Nat
  maxDelayMs : Nat
  timeoutMs : Nat
deriving DecidableEq, Repr

/-- The integrator's `retryConfig` field. -/
def retryConfig : RetryConfig :=
  { maxRetries := 3, initialDelayMs := 1000, maxDelayMs := 10000, timeoutMs := 30000 }

/-- The `timeout` passed to `axios.create` (and to the SVG download
call): `this.retryConfig.timeoutMs`. -/
def axiosRequestTimeoutMs : Nat := retryConfig.timeoutMs

/-- `FigmaIntegrator.calculateBackoffDelay`. -/
def calculateBackoffDelay (cfg : RetryConfig) (attempt : Nat) : Nat :=
  min (cfg.initialDelayMs * 2 ^ attempt) cfg.maxDelayMs

/-- Observable trace of one `executeWithRetry` call: the final outcome,
how many attempts ran, and the backoff delays waited between them. -/
structure RetryTrace (α : Type) where
  result : Except JsError α
  attemptsUsed : Nat
  delays : List Nat
deriving Repr, DecidableEq

/-- The `for (attempt = 0; attempt <= maxRetries; attempt++)` loop of
`executeWithRetry`, from attempt number `attempt` with `fuel` further
attempts allowed after the current one (`fuel = maxRetries - attempt`
at every reachable call, so the fuel guard and the `attempt < maxRetries`
guard agree). -/
def runAttempts {α : Type} (cfg : RetryConfig) (outcomes : Nat → Except JsError α) :
    Nat → Nat → RetryTrace α
  | attempt, 0 =>
    match outcomes attempt with
    | .ok v => ⟨.ok v, attempt + 1, []⟩
    | .error e => ⟨.error e, attempt + 1, []⟩
  | attempt, fuel + 1 =>
    match outcomes attempt with
    | .ok v => ⟨.ok v, attempt + 1, []⟩
    | .error e =>
      if isRetryableError (categorizeError e) && attempt < cfg.maxRetries then
        let delayMs := calculateBackoffDelay cfg attempt
        let t := runAttempts cfg outcomes (attempt + 1) fuel
        ⟨t.result, t.attemptsUsed, delayMs :: t.delays⟩
      else ⟨.error e, attempt + 1, []⟩

/-- `FigmaIntegrator.executeWithRetry`, with the outcome of each attempt
supplied by the oracle `outcomes`. -/
def executeWithRetry {α : Type} (cfg : RetryConfig) (outcomes : Nat → Except JsError α) :
    RetryTrace α :=
  runAttempts cfg outcomes 0 cfg.maxRetries

/-- `FigmaComponent`. -/
structure FigmaComponent where
  id : String
  name : String
  type : String
  description : Option String := none
  componentId : Option String := none
deriving DecidableEq, Repr

/-- `SyncResult`. -/
structure SyncResult where
  success : Nat
  failed : Nat
  errors : List (String × String)
deriving DecidableEq, Repr

/-- Strip a leading `icon-`/`icon_` marker, case-insensitively
(`replace(/^icon[-_]/i, '')`). -/
def stripIconMarker (s : String) : String :=
  match s.toList with
  | c1 :: c2 :: c3 :: c4 :: c5 :: rest =>
    if String.mk [c1.toLower, c2.toLower, c3.toLower, c4.toLower] = "icon" &&
        (c5 = '-' || c5 = '_') then
      String.mk rest
    else s
  | _ => s

/-- Collapse every whitespace run to one hyphen (`replace(/\s+/g, '-')`);
the flag records being inside an already-replaced whitespace run. -/
def collapseWsCore : List Char → Bool → List Char
  | [], _ => []
  | c :: t, inSep =>
    if isJsWhitespace c then
      if inSep then collapseWsCore t true
      else '-' :: collapseWsCore t true
    else c :: collapseWsCore t false

/-- Collapse every whitespace run to one hyphen (`replace(/\s+/g, '-')`). -/
def collapseWs (cs : List Char) : List Char := collapseWsCore cs false

/-- Characters kept by `replace(/[^a-z0-9-_]/g, '')`. -/
def isSlugChar (c : Char) : Bool :=
  ('a' ≤ c && c ≤ 'z') || c.isDigit || c = '-' || c = '_'

/-- The component-name slugification of `syncIcon`/`syncAllIcons`:
strip the icon marker, lower-case, collapse whitespace to hyphens, drop
disallowed characters. -/
def slugifyName (componentName : String) : String :=
  String.mk (((collapseWs (jsToLowerStr (stripIconMarker componentName)).toList)).filter
    isSlugChar)

/-- The icon name used for a component: the slug, or the fallback
`icon-` + first 8 characters of the component id when the slug is empty. -/
def iconNameFor (componentId componentName : String) : String :=
  let iconName := slugifyName componentName
  if iconName = "" then "icon-" ++ componentId.take 8 else iconName

/-- Message extraction for errors propagated out of `addIcon` into the
sync loop (the thrown error's `.message`). -/
def addIconErrorMessage : AddIconError String → String
  | .conflict msg => msg
  | .parseFailed msg => msg

/-- `FigmaIntegrator.syncIcon` (post-connection body): export the
component (the oracle gives the end-to-end export outcome), then
`addIcon` under the `overwrite` strategy. -/
def syncIcon (parse : String → Except String IconData)
    (exportFn : String → Except String String) (env : Option String)
    (st : StoreState) (componentId componentName ns : String) (now : Nat) :
    StoreState × Except String Unit :=
  match exportFn componentId with
  | .error e => (st, .error e)
  | .ok svg =>
    let iconName := iconNameFor componentId componentName
    let r := addIcon parse st ns iconName svg (some "overwrite") env now
    (r.1, r.2.mapError addIconErrorMessage)

/-- Is `iconName` present in the icon map loaded for incremental sync? -/
def existingHas (existing : Option (List (String × IconData))) (iconName : String) : Bool :=
  match existing with
  | some m => (agetKV m iconName).isSome
  | none => false

/-- The per-component loop of `syncAllIcons`: each component is named,
possibly skipped (incremental mode, counted as success), otherwise
synced with its error caught and recorded; `times i` is the clock value
when component number `i` is applied. -/
def syncLoop (parse : String → Except String IconData)
    (exportFn : String → Except String String) (env : Option String) (ns : String)
    (incremental : Bool) (existing : Option (List (String × IconData)))
    (times : Nat → Nat) :
    List FigmaComponent → Nat → StoreState → SyncResult × StoreState
  | [], _, st => (⟨0, 0, []⟩, st)
  | c :: rest, i, st =>
    let iconName := iconNameFor c.id c.name
    if incremental && existingHas existing iconName then
      let acc := syncLoop parse exportFn env ns incremental existing times rest (i + 1) st
      (⟨acc.1.success + 1, acc.1.failed, acc.1.errors⟩, acc.2)
    else
      match syncIcon parse exportFn env st c.id c.name ns (times i) with
      | (st', Except.ok _) =>
        let acc := syncLoop parse exportFn env ns incremental existing times rest (i + 1) st'
        (⟨acc.1.success + 1, acc.1.failed, acc.1.errors⟩, acc.2)
      | (st', Except.error m) =>
        let acc := syncLoop parse exportFn env ns incremental existing times rest (i + 1) st'
        (⟨acc.1.success, acc.1.failed + 1, (c.id, m) :: acc.1.errors⟩, acc.2)

/-- `FigmaIntegrator.syncAllIcons`: fail when not connected; a failed
component fetch is recorded (id `N/A`) and returned with the store
untouched; otherwise every fetched component is processed in order.
`fetchResult` is the outcome of `fetchIconComponentsWithPagination(false)`. -/
def syncAllIcons (parse : String → Except String IconData)
    (exportFn : String → Except String String) (connected : Bool)
    (fetchResult : Except String (List FigmaComponent)) (env : Option String)
    (st : StoreState) (ns : String) (incremental : Bool) (times : Nat → Nat) :
    Except String (SyncResult × StoreState) :=
  if ¬ connected then .error "Not connected to Figma API. Call connect() first."
  else
    match fetchResult with
    | .error m =>
      .ok (⟨0, 0, [("N/A", "Failed to fetch components: " ++ m)]⟩, st)
    | .ok iconComponents =>
      if iconComponents.length = 0 then .ok (⟨0, 0, []⟩, st)
      else
        let existing := if incremental then some (loadIconSetIcons st ns) else none
        .ok (syncLoop parse exportFn env ns incremental existing times iconComponents 0 st)

/-! ## Frame lemmas for the store -/

theorem readIcon_saveIconSetMetadata (st : StoreState) (ns' : String) (m : IconSetMetadata)
    (ns name : String) : readIcon (saveIconSetMetadata st ns' m) ns name = readIcon st ns name :=
  rfl

theorem readIcon_updateMetadata (st : StoreState) (ns' : String) (now : Nat) (ns name : String) :
    readIcon (updateMetadata st ns' now) ns name = readIcon st ns name :=
  rfl

theorem readIcon_saveIcon_self (st : StoreState) (ns name : String) (d : IconData) :
    readIcon (saveIcon st ns name d) ns name = some d :=
  agetKV_asetKV_self st.icons (ns, name) d

theorem readIcon_saveIcon_ne (st : StoreState) (ns name ns' name' : String) (d : IconData)
    (h : (ns, name) ≠ (ns', name')) :
    readIcon (saveIcon st ns name d) ns' name' = readIcon st ns' name' :=
  agetKV_asetKV_ne st.icons (ns, name) (ns', name') d h

theorem readIcon_saveIconVersion (st : StoreState) (ns name versionId : String) (d : IconData)
    (ns' name' : String) :
    readIcon (saveIconVersion st ns name versionId d) ns' name' = readIcon st ns' name' :=
  rfl

theorem versions_saveIcon (st : StoreState) (ns name : String) (d : IconData) :
    (saveIcon st ns name d).versions = st.versions :=
  rfl

theorem versions_updateMetadata (st : StoreState) (ns : String) (now : Nat) :
    (updateMetadata st ns now).versions = st.versions :=
  rfl

theorem readIconVersion_saveIcon (st : StoreState) (ns name : String) (d : IconData)
    (ns' name' versionId : String) :
    readIconVersion (saveIcon st ns name d) ns' name' versionId =
      readIconVersion st ns' name' versionId :=
  rfl

theorem readIconVersion_updateMetadata (st : StoreState) (ns : String) (now : Nat)
    (ns' name' versionId : String) :
    readIconVersion (updateMetadata st ns now) ns' name' versionId =
      readIconVersion st ns' name' versionId :=
  rfl

theorem readIconVersion_saveVersion_self (st : StoreState) (ns name : String) (d : IconData)
    (now : Nat) :
    readIconVersion (saveVersion st ns name d now).1 ns name ("v" ++ toString now) = some d :=
  agetKV_asetKV_self st.versions ((ns, name), "v" ++ toString now) d

theorem metadata_saveIcon (st : StoreState) (ns name : String) (d : IconData) (ns' : String) :
    readIconSetMetadata (saveIcon st ns name d) ns' = readIconSetMetadata st ns' :=
  rfl

theorem metadata_saveVersion (st : StoreState) (ns name : String) (d : IconData) (now : Nat)
    (ns' : String) :
    readIconSetMetadata (saveVersion st ns name d now).1 ns' = readIconSetMetadata st ns' :=
  rfl

theorem listIcons_saveIconSetMetadata (st : StoreState) (ns' : String) (m : IconSetMetadata)
    (ns : String) : listIcons (saveIconSetMetadata st ns' m) ns = listIcons st ns :=
  rfl

/-- A key readable from a keyed family is listed by that family's
directory listing. -/
theorem mem_filterMap_of_agetKV {κ₁ κ₂ ν : Type} [DecidableEq κ₁] [DecidableEq κ₂]
    (l : List ((κ₁ × κ₂) × ν)) (a : κ₁) (b : κ₂) (v : ν)
    (h : agetKV l (a, b) = some v) :
    b ∈ l.filterMap (fun p => if p.1.1 = a then some p.1.2 else none) := by
  induction l with
  | nil => simp [agetKV] at h
  | cons p t ih =>
    obtain ⟨⟨k1, k2⟩, w⟩ := p
    by_cases hk : (k1, k2) = (a, b)
    · obtain ⟨h1, h2⟩ := Prod.mk.injEq k1 k2 a b ▸ hk
      subst h1; subst h2
      simp [List.filterMap_cons]
    · rw [agetKV, if_neg hk] at h
      have hmem := ih h
      simp only [List.filterMap_cons]
      by_cases h1 : k1 = a
      · subst h1; simp [hmem]
      · simp [h1, hmem]

/-- A listed version id is readable. -/
theorem agetKV_isSome_of_mem_filterMap {κ₁ κ₂ ν : Type} [DecidableEq κ₁] [DecidableEq κ₂]
    (l : List ((κ₁ × κ₂) × ν)) (a : κ₁) (b : κ₂)
    (h : b ∈ l.filterMap (fun p => if p.1.1 = a then some p.1.2 else none)) :
    (agetKV l (a, b)).isSome := by
  induction l with
  | nil => simp [List.filterMap_nil] at h
  | cons p t ih =>
    obtain ⟨⟨k1, k2⟩, w⟩ := p
    by_cases hk : (k1, k2) = (a, b)
    · rw [agetKV, if_pos hk]; rfl
    · rw [agetKV, if_neg hk]
      apply ih
      simp only [List.filterMap_cons] at h
      by_cases h1 : k1 = a
      · subst h1
        simp only [if_pos rfl] at h
        rcases List.mem_cons.mp h with h2 | h2
        · exact absurd (by rw [h2]) hk
        · exact h2
      · simpa [h1] using h

/-! ## Claim theorems -/

/-- Claim C1: when an icon already exists at `(namespace, name)`, a
second `addIcon` under the resolved `reject` strategy fails with the
`ConflictError` and returns the store completely unchanged (icon,
version history and metadata included); under `overwrite` the write
succeeds, the previously stored icon is readable as the snapshot
`v{now}` which appears in the version listing, and the newly parsed icon
becomes the current one. -/
theorem addIcon_conflict_strategies {σ ε : Type} (parse : σ → Except ε IconData)
    (st : StoreState) (ns name : String) (svg : σ) (opt env : Option String) (now : Nat)
    (ex : IconData) (hex : readIcon st ns name = some ex) :
    (resolveStrategy opt env = "reject" →
      addIcon parse st ns name svg opt env now =
        (st, .error (.conflict (conflictMessage ns name)))) ∧
    (resolveStrategy opt env = "overwrite" →
      ∀ d2, parse svg = .ok d2 →
        (addIcon parse st ns name svg opt env now).2 = .ok () ∧
        readIcon (addIcon parse st ns name svg opt env now).1 ns name = some d2 ∧
        readIconVersion (addIcon parse st ns name svg opt env now).1 ns name
          ("v" ++ toString now) = some ex ∧
        ("v" ++ toString now) ∈
          listIconVersions (addIcon parse st ns name svg opt env now).1 ns name) := by
  constructor
  · intro hstrat
    simp [addIcon, hex, hstrat]
  · intro hstrat d2 hparse
    have hne : ¬ resolveStrategy opt env = "reject" := by
      rw [hstrat]; decide
    have hshape : addIcon parse st ns name svg opt env now =
        (updateMetadata (saveIcon (saveVersion st ns name ex now).1 ns name d2) ns now,
          .ok ()) := by
      simp [addIcon, hex, hne, hstrat, hparse]
    rw [hshape]
    refine ⟨rfl, ?_, ?_, ?_⟩
    · rw [readIcon_updateMetadata]
      exact readIcon_saveIcon_self _ ns name d2
    · rw [readIconVersion_updateMetadata, readIconVersion_saveIcon]
      exact readIconVersion_saveVersion_self st ns name ex now
    · have hread : readIconVersion
          (updateMetadata (saveIcon (saveVersion st ns name ex now).1 ns name d2) ns now)
          ns name ("v" ++ toString now) = some ex := by
        rw [readIconVersion_updateMetadata, readIconVersion_saveIcon]
        exact readIconVersion_saveVersion_self st ns name ex now
      exact mem_filterMap_of_agetKV _ (ns, name) ("v" ++ toString now) ex hread

/-- Concrete states and parser for the manager witnesses. -/
def parseW : String → Except String IconData :=
  fun s => if s = "bad" then .error "Invalid SVG format" else .ok { body := s }

/-- A store holding one icon `gd:home` with its metadata, as produced by
a first `addIcon` at time 100. -/
def stW : StoreState := (addIcon parseW emptyStore "gd" "home" "b24" none none 100).1

/-- Witness for C1 at a concrete store: the reject branch leaves `stW`
unchanged and the overwrite branch snapshots `b24` and stores `b32`. -/
theorem addIcon_conflict_strategies_witness :
    (addIcon parseW stW "gd" "home" "b32" (some "reject") none 200 =
      (stW, .error (.conflict (conflictMessage "gd" "home")))) ∧
    ((addIcon parseW stW "gd" "home" "b32" (some "overwrite") none 200).2 = .ok () ∧
      readIcon (addIcon parseW stW "gd" "home" "b32" (some "overwrite") none 200).1
        "gd" "home" = some { body := "b32" } ∧
      readIconVersion (addIcon parseW stW "gd" "home" "b32" (some "overwrite") none 200).1
        "gd" "home" "v200" = some { body := "b24" } ∧
      "v200" ∈ listIconVersions
        (addIcon parseW stW "gd" "home" "b32" (some "overwrite") none 200).1 "gd" "home") := by
  have hex : readIcon stW "gd" "home" = some { body := "b24" } := by decide
  have h1 := addIcon_conflict_strategies parseW stW "gd" "home" "b32" (some "reject") none 200
    { body := "b24" } hex
  have h2 := addIcon_conflict_strategies parseW stW "gd" "home" "b32" (some "overwrite") none 200
    { body := "b24" } hex
  refine ⟨h1.1 (by decide), h2.2 (by decide) { body := "b32" } (by decide)⟩

/-- Claim C2: `rollbackToVersion` on a missing version id fails with
the version-not-found error and returns the store unchanged; on an
existing version it answers `ok`, the target version's data becomes the
current icon, the previous current icon (when one existed) is readable
as the fresh snapshot `v{now}` (and when none existed the version
history is untouched), and the namespace metadata is rewritten with the
recomputed total, the advanced version string and `lastModified = now`. -/
theorem rollbackToVersion_spec (st : StoreState) (ns name versionId : String) (now : Nat) :
    (readIconVersion st ns name versionId = none →
      rollbackToVersion st ns name versionId now =
        (st, .error (.versionNotFound versionId))) ∧
    (∀ vdata, readIconVersion st ns name versionId = some vdata →
      (rollbackToVersion st ns name versionId now).2 = .ok () ∧
      readIcon (rollbackToVersion st ns name versionId now).1 ns name = some vdata ∧
      (∀ cur, readIcon st ns name = some cur →
        readIconVersion (rollbackToVersion st ns name versionId now).1 ns name
          ("v" ++ toString now) = some cur) ∧
      (readIcon st ns name = none →
        (rollbackToVersion st ns name versionId now).1.versions = st.versions) ∧
      (∃ m, readIconSetMetadata (rollbackToVersion st ns name versionId now).1 ns = some m ∧
        m.total = (listIcons (rollbackToVersion st ns name versionId now).1 ns).length ∧
        m.lastModified = now ∧
        m.version = (match readIconSetMetadata st ns with
          | some old => incrementVersion old.version now
          | none => "1.0.0"))) := by
  constructor
  · intro hnone
    simp [rollbackToVersion, hnone]
  · intro vdata hsome
    have hshape : rollbackToVersion st ns name versionId now =
        (updateMetadata
          (saveIcon (match readIcon st ns name with
            | some currentIcon => (saveVersion st ns name currentIcon now).1
            | none => st) ns name vdata) ns now, .ok ()) := by
      simp [rollbackToVersion, hsome]
    refine ⟨by rw [hshape], ?_, ?_, ?_, ?_⟩
    · rw [hshape, readIcon_updateMetadata]
      exact readIcon_saveIcon_self _ ns name vdata
    · intro cur hcur
      rw [hshape, readIconVersion_updateMetadata, readIconVersion_saveIcon, hcur]
      exact readIconVersion_saveVersion_self st ns name cur now
    · intro hnone
      rw [hshape, versions_updateMetadata, versions_saveIcon, hnone]
    · rw [hshape]
      set st1 := (match readIcon st ns name with
        | some currentIcon => (saveVersion st ns name currentIcon now).1
        | none => st) with hst1
      have hmeta1 : readIconSetMetadata (saveIcon st1 ns name vdata) ns =
          readIconSetMetadata st ns := by
        rw [metadata_saveIcon]
        cases hro : readIcon st ns name with
        | none => rw [hst1, hro]
        | some cur => rw [hst1, hro, metadata_saveVersion]
      refine ⟨_, agetKV_asetKV_self _ ns _, ?_, rfl, ?_⟩
      · show (listIcons (saveIcon st1 ns name vdata) ns).length =
          (listIcons (updateMetadata (saveIcon st1 ns name vdata) ns now) ns).length
        rfl
      · show (match readIconSetMetadata (saveIcon st1 ns name vdata) ns with
          | some m => incrementVersion m.version now
          | none => "1.0.0") = (match readIconSetMetadata st ns with
          | some old => incrementVersion old.version now
          | none => "1.0.0")
        rw [hmeta1]

/-- The store after overwriting `gd:home` with `b32` at time 200 (so
`v200` holds the original `b24`). -/
def stW2 : StoreState :=
  (addIcon parseW stW "gd" "home" "b32" (some "overwrite") none 200).1

/-- Witness for C2 at a concrete store: rolling back `gd:home` to the
missing `v999` leaves `stW` unchanged, and rolling back the
post-overwrite store to the real snapshot `v200` restores `b24`,
snapshots `b32` as `v300`, and rewrites the metadata. -/
theorem rollbackToVersion_spec_witness :
    (rollbackToVersion stW "gd" "home" "v999" 300 =
      (stW, .error (.versionNotFound "v999"))) ∧
    ((rollbackToVersion stW2 "gd" "home" "v200" 300).2 = .ok () ∧
      readIcon (rollbackToVersion stW2 "gd" "home" "v200" 300).1 "gd" "home" =
        some { body := "b24" } ∧
      readIconVersion (rollbackToVersion stW2 "gd" "home" "v200" 300).1 "gd" "home" "v300" =
        some { body := "b32" } ∧
      (∃ m, readIconSetMetadata (rollbackToVersion stW2 "gd" "home" "v200" 300).1 "gd" =
          some m ∧
        m.total = (listIcons (rollbackToVersion stW2 "gd" "home" "v200" 300).1 "gd").length ∧
        m.lastModified = 300 ∧
        m.version = (match readIconSetMetadata stW2 "gd" with
          | some old => incrementVersion old.version 300
          | none => "1.0.0"))) := by
  have h1 := rollbackToVersion_spec stW "gd" "home" "v999" 300
  have h2 := rollbackToVersion_spec stW2 "gd" "home" "v200" 300
  have hs := h2.2 { body := "b24" } (by decide)
  refine ⟨h1.1 (by decide), hs.1, hs.2.1, ?_, hs.2.2.2.2⟩
  exact hs.2.2.1 { body := "b32" } (by decide)

/-- Claim C10: when an icon exists and the resolved conflict strategy is
neither `reject` nor `overwrite`, `addIcon` neither fails with the
conflict error nor writes a version snapshot: it succeeds, the new data
silently replaces the current icon, and the version history is exactly
what it was before. -/
theorem addIcon_unknown_strategy {σ ε : Type} (parse : σ → Except ε IconData)
    (st : StoreState) (ns name : String) (svg : σ) (opt env : Option String) (now : Nat)
    (ex : IconData) (d2 : IconData)
    (hex : readIcon st ns name = some ex)
    (hr : resolveStrategy opt env ≠ "reject")
    (ho : resolveStrategy opt env ≠ "overwrite")
    (hp : parse svg = .ok d2) :
    (addIcon parse st ns name svg opt env now).2 = .ok () ∧
    readIcon (addIcon parse st ns name svg opt env now).1 ns name = some d2 ∧
    (addIcon parse st ns name svg opt env now).1.versions = st.versions := by
  have hshape : addIcon parse st ns name svg opt env now =
      (updateMetadata (saveIcon st ns name d2) ns now, .ok ()) := by
    simp [addIcon, hex, hr, ho, hp]
  rw [hshape]
  exact ⟨rfl, by rw [readIcon_updateMetadata]; exact readIcon_saveIcon_self st ns name d2, rfl⟩

/-- Witness for C10: the environment strategy `merge` silently
overwrites `gd:home` in `stW` and leaves the (empty) version history
empty. -/
theorem addIcon_unknown_strategy_witness :
    (addIcon parseW stW "gd" "home" "b32" none (some "merge") 200).2 = .ok () ∧
    readIcon (addIcon parseW stW "gd" "home" "b32" none (some "merge") 200).1 "gd" "home" =
      some { body := "b32" } ∧
    (addIcon parseW stW "gd" "home" "b32" none (some "merge") 200).1.versions =
      stW.versions :=
  addIcon_unknown_strategy parseW stW "gd" "home" "b32" none (some "merge") 200
    { body := "b24" } { body := "b32" } (by decide) (by decide) (by decide) (by decide)

/-- Listing then reading: the entry list of `getVersionHistory` keeps
exactly the listed version ids (in listing order) when every listed id
is readable. -/
theorem mapId_filterMap_entries (st : StoreState) (ns name : String) :
    ∀ ids : List String, (∀ vid ∈ ids, (readIconVersion st ns name vid).isSome) →
      (ids.filterMap (fun versionId => (readIconVersion st ns name versionId).map (fun d =>
        ({ id := versionId, timestamp := versionTimestamp versionId, data := d }
          : VersionEntry)))).map (fun v => v.id) = ids := by
  intro ids
  induction ids with
  | nil => intro _; simp
  | cons vid t ih =>
    intro h
    have hv : (readIconVersion st ns name vid).isSome := h vid (List.mem_cons_self vid t)
    obtain ⟨d, hd⟩ := Option.isSome_iff_exists.mp hv
    simp only [List.filterMap_cons, hd, Option.map_some', List.map_cons]
    rw [ih (fun x hx => h x (List.mem_cons_of_mem vid hx))]

/-- Claim C9: `getVersionHistory` returns entries pairwise sorted by
timestamp in decreasing order (newest first); every returned entry
carries the timestamp `parseInt(id.substring(1), 10)` — `0` when that is
`NaN` — together with the stored data of its version id; and the
returned ids are a permutation of the listed version ids. -/
theorem getVersionHistory_spec (st : StoreState) (ns name : String) :
    List.Pairwise (fun a b => b.timestamp ≤ a.timestamp) (getVersionHistory st ns name) ∧
    (∀ v ∈ getVersionHistory st ns name,
      v.timestamp = (jsParseInt (v.id.drop 1)).getD 0 ∧
      readIconVersion st ns name v.id = some v.data) ∧
    List.Perm ((getVersionHistory st ns name).map (fun v => v.id))
      (listIconVersions st ns name) := by
  have htrans : ∀ a b c : VersionEntry,
      decide (b.timestamp ≤ a.timestamp) → decide (c.timestamp ≤ b.timestamp) →
      decide (c.timestamp ≤ a.timestamp) := by
    intro a b c hab hbc
    simp only [decide_eq_true_eq] at hab hbc ⊢
    exact le_trans hbc hab
  have htotal : ∀ a b : VersionEntry,
      (decide (b.timestamp ≤ a.timestamp) || decide (a.timestamp ≤ b.timestamp)) = true := by
    intro a b
    simp only [Bool.or_eq_true, decide_eq_true_eq]
    exact (Int.le_total b.timestamp a.timestamp)
  refine ⟨?_, ?_, ?_⟩
  · have hp := List.sorted_mergeSort htrans htotal
      ((listIconVersions st ns name).filterMap (fun versionId =>
        (readIconVersion st ns name versionId).map (fun d =>
          ({ id := versionId, timestamp := versionTimestamp versionId, data := d }
            : VersionEntry))))
    exact hp.imp (fun h => by simpa using h)
  · intro v hv
    have hv' := List.mem_mergeSort.mp hv
    obtain ⟨vid, _, hvm⟩ := List.mem_filterMap.mp hv'
    cases hr : readIconVersion st ns name vid with
    | none => rw [hr] at hvm; simp at hvm
    | some d =>
      rw [hr] at hvm
      simp only [Option.map_some', Option.some.injEq] at hvm
      rw [← hvm]
      exact ⟨rfl, hr⟩
  · have hperm := List.mergeSort_perm
      ((listIconVersions st ns name).filterMap (fun versionId =>
        (readIconVersion st ns name versionId).map (fun d =>
          ({ id := versionId, timestamp := versionTimestamp versionId, data := d }
            : VersionEntry))))
      (fun a b => decide (b.timestamp ≤ a.timestamp))
    have hmap := hperm.map (fun v : VersionEntry => v.id)
    rw [mapId_filterMap_entries st ns name (listIconVersions st ns name)
      (fun vid hvid => agetKV_isSome_of_mem_filterMap st.versions (ns, name) vid hvid)] at hmap
    exact hmap

/-- Witness for C9 at the concrete store `stW2` (one stored version). -/
theorem getVersionHistory_spec_witness :
    List.Pairwise (fun a b => b.timestamp ≤ a.timestamp) (getVersionHistory stW2 "gd" "home") ∧
    (∀ v ∈ getVersionHistory stW2 "gd" "home",
      v.timestamp = (jsParseInt (v.id.drop 1)).getD 0 ∧
      readIconVersion stW2 "gd" "home" v.id = some v.data) ∧
    List.Perm ((getVersionHistory stW2 "gd" "home").map (fun v => v.id))
      (listIconVersions stW2 "gd" "home") :=
  getVersionHistory_spec stW2 "gd" "home"

/-! ## Retry-loop lemmas -/

theorem runAttempts_attempts_lb {α : Type} (cfg : RetryConfig) (o : Nat → Except JsError α) :
    ∀ fuel attempt, attempt + 1 ≤ (runAttempts cfg o attempt fuel).attemptsUsed := by
  intro fuel
  induction fuel with
  | zero =>
    intro attempt
    cases h : o attempt <;> simp [runAttempts, h]
  | succ f ih =>
    intro attempt
    cases h : o attempt with
    | ok v => simp [runAttempts, h]
    | error e =>
      by_cases hg : (isRetryableError (categorizeError e) && decide (attempt < cfg.maxRetries)) = true
      · have hih := ih (attempt + 1)
        simp only [runAttempts, h, hg, if_true]
        omega
      · simp [runAttempts, h, hg]

theorem runAttempts_attempts_ub {α : Type} (cfg : RetryConfig) (o : Nat → Except JsError α) :
    ∀ fuel attempt, (runAttempts cfg o attempt fuel).attemptsUsed ≤ attempt + fuel + 1 := by
  intro fuel
  induction fuel with
  | zero =>
    intro attempt
    cases h : o attempt <;> simp [runAttempts, h]
  | succ f ih =>
    intro attempt
    cases h : o attempt with
    | ok v => simp [runAttempts, h]; try omega
    | error e =>
      by_cases hg : (isRetryableError (categorizeError e) && decide (attempt < cfg.maxRetries)) = true
      · have hih := ih (attempt + 1)
        simp only [runAttempts, h, hg, if_true]
        omega
      · simp [runAttempts, h, hg]; try omega

theorem runAttempts_delays {α : Type} (cfg : RetryConfig) (o : Nat → Except JsError α) :
    ∀ fuel attempt, (runAttempts cfg o attempt fuel).delays =
      (List.range' attempt ((runAttempts cfg o attempt fuel).attemptsUsed - attempt - 1)).map
        (calculateBackoffDelay cfg) := by
  intro fuel
  induction fuel with
  | zero =>
    intro attempt
    cases h : o attempt <;> simp [runAttempts, h]
  | succ f ih =>
    intro attempt
    cases h : o attempt with
    | ok v => simp [runAttempts, h]
    | error e =>
      by_cases hg : (isRetryableError (categorizeError e) && decide (attempt < cfg.maxRetries)) = true
      · have hih := ih (attempt + 1)
        have hlb := runAttempts_attempts_lb cfg o f (attempt + 1)
        simp only [runAttempts, h, hg, if_true]
        have hn : (runAttempts cfg o (attempt + 1) f).attemptsUsed - attempt - 1 =
            ((runAttempts cfg o (attempt + 1) f).attemptsUsed - (attempt + 1) - 1) + 1 := by
          omega
        rw [hn, List.range'_succ, List.map_cons, hih]
      · simp [runAttempts, h, hg]

theorem runAttempts_nonfinal_retryable {α : Type} (cfg : RetryConfig)
    (o : Nat → Except JsError α) :
    ∀ fuel attempt i, attempt ≤ i → i + 1 < (runAttempts cfg o attempt fuel).attemptsUsed →
      ∃ e, o i = .error e ∧ isRetryableError (categorizeError e) = true := by
  intro fuel
  induction fuel with
  | zero =>
    intro attempt i hai hn
    cases h : o attempt <;> simp [runAttempts, h] at hn <;> try omega
  | succ f ih =>
    intro attempt i hai hn
    cases h : o attempt with
    | ok v => simp [runAttempts, h] at hn; omega
    | error e =>
      by_cases hg : (isRetryableError (categorizeError e) && decide (attempt < cfg.maxRetries)) = true
      · simp only [runAttempts, h, hg, if_true] at hn
        rcases Nat.eq_or_lt_of_le hai with heq | hlt
        · subst heq
          refine ⟨e, h, ?_⟩
          simp only [Bool.and_eq_true] at hg
          exact hg.1
        · exact ih (attempt + 1) i hlt hn
      · simp [runAttempts, h, hg] at hn
        omega

theorem runAttempts_retryable_retried {α : Type} (cfg : RetryConfig)
    (o : Nat → Except JsError α) :
    ∀ fuel attempt, attempt + fuel = cfg.maxRetries →
      ∀ i e, attempt ≤ i → i < (runAttempts cfg o attempt fuel).attemptsUsed →
        o i = .error e → isRetryableError (categorizeError e) = true →
        i < cfg.maxRetries → i + 1 < (runAttempts cfg o attempt fuel).attemptsUsed := by
  intro fuel
  induction fuel with
  | zero =>
    intro attempt hf i e hai hn ho hre hmax
    cases h : o attempt <;> simp [runAttempts, h] at hn <;> omega
  | succ f ih =>
    intro attempt hf i e hai hn ho hre hmax
    cases h : o attempt with
    | ok v =>
      simp [runAttempts, h] at hn
      have : i = attempt := by omega
      subst this
      rw [h] at ho
      exact absurd ho (by simp)
    | error e0 =>
      by_cases hg : (isRetryableError (categorizeError e0) && decide (attempt < cfg.maxRetries)) = true
      · simp only [runAttempts, h, hg, if_true] at hn ⊢
        rcases Nat.eq_or_lt_of_le hai with heq | hlt
        · subst heq
          have := runAttempts_attempts_lb cfg o f (attempt + 1)
          omega
        · exact ih (attempt + 1) (by omega) i e hlt hn ho hre hmax
      · simp [runAttempts, h, hg] at hn ⊢
        have hieq : i = attempt := by omega
        subst hieq
        rw [h] at ho
        have he0 : e0 = e := by
          exact (Except.error.inj ho)
        subst he0
        rw [hre] at hg
        simp at hg
        omega

theorem runAttempts_final {α : Type} (cfg : RetryConfig) (o : Nat → Except JsError α) :
    ∀ fuel attempt, attempt + fuel = cfg.maxRetries →
      (∀ v, (runAttempts cfg o attempt fuel).result = .ok v →
        o ((runAttempts cfg o attempt fuel).attemptsUsed - 1) = .ok v) ∧
      (∀ e, (runAttempts cfg o attempt fuel).result = .error e →
        o ((runAttempts cfg o attempt fuel).attemptsUsed - 1) = .error e ∧
        (isRetryableError (categorizeError e) = false ∨
          (runAttempts cfg o attempt fuel).attemptsUsed = cfg.maxRetries + 1)) := by
  intro fuel
  induction fuel with
  | zero =>
    intro attempt hf
    cases h : o attempt with
    | ok v =>
      have hsh : runAttempts cfg o attempt 0 = ⟨.ok v, attempt + 1, []⟩ := by
        simp [runAttempts, h]
      rw [hsh]
      constructor
      · intro x hx
        have hvx : v = x := Except.ok.inj hx
        subst hvx
        simpa using h
      · intro x hx
        exact absurd hx (by simp)
    | error e =>
      have hsh : runAttempts cfg o attempt 0 = ⟨.error e, attempt + 1, []⟩ := by
        simp [runAttempts, h]
      rw [hsh]
      constructor
      · intro x hx
        exact absurd hx (by simp)
      · intro x hx
        have hex : e = x := Except.error.inj hx
        subst hex
        refine ⟨by simpa using h, Or.inr ?_⟩
        show attempt + 1 = cfg.maxRetries + 1
        omega
  | succ f ih =>
    intro attempt hf
    cases h : o attempt with
    | ok v =>
      have hsh : runAttempts cfg o attempt (f + 1) = ⟨.ok v, attempt + 1, []⟩ := by
        simp [runAttempts, h]
      rw [hsh]
      constructor
      · intro x hx
        have hvx : v = x := Except.ok.inj hx
        subst hvx
        simpa using h
      · intro x hx
        exact absurd hx (by simp)
    | error e =>
      by_cases hg : (isRetryableError (categorizeError e) && decide (attempt < cfg.maxRetries)) = true
      · have hih := ih (attempt + 1) (by omega)
        constructor
        · intro v hv
          simp only [runAttempts, h, hg, if_true] at hv ⊢
          exact hih.1 v hv
        · intro e1 he1
          simp only [runAttempts, h, hg, if_true] at he1 ⊢
          exact hih.2 e1 he1
      · have hsh : runAttempts cfg o attempt (f + 1) = ⟨.error e, attempt + 1, []⟩ := by
          simp [runAttempts, h, hg]
        rw [hsh]
        constructor
        · intro x hx
          exact absurd hx (by simp)
        · intro x hx
          have hex : e = x := Except.error.inj hx
          subst hex
          refine ⟨by simpa using h, Or.inl ?_⟩
          by_cases hr : isRetryableError (categorizeError e) = true
          · rw [hr] at hg
            simp only [Bool.true_and] at hg
            have hlt : attempt < cfg.maxRetries := by omega
            exact absurd (by simpa using hlt) hg
          · simpa using hr

/-- Claim C5: with the integrator's `retryConfig` (3 retries, 1 s
initial delay, 10 s cap, 30 s per-call timeout wired into the axios
calls), every `executeWithRetry` run uses at most 4 attempts; the delay
before retry attempt `a` is `min(1000·2^a, 10000)` (the delays of a run
are exactly that formula over the retried attempts); every non-final
attempt failed with an error categorized as retryable (network, timeout,
rate-limit or generic API — the only retryable categories), and a
retryable failure with both attempts and budget remaining is always
retried; a first-attempt error of a non-retryable category (such as
authentication 401/403 or not-found 404) surfaces immediately after one
attempt; the final outcome is the final attempt's outcome, and an error
outcome is only returned non-retryable or with the retry budget
exhausted. -/
theorem executeWithRetry_spec {α : Type} (outcomes : Nat → Except JsError α) :
    retryConfig = ⟨3, 1000, 10000, 30000⟩ ∧
    axiosRequestTimeoutMs = 30000 ∧
    (∀ attempt, calculateBackoffDelay retryConfig attempt = min (1000 * 2 ^ attempt) 10000) ∧
    (executeWithRetry retryConfig outcomes).attemptsUsed ≤ 4 ∧
    (executeWithRetry retryConfig outcomes).delays =
      (List.range ((executeWithRetry retryConfig outcomes).attemptsUsed - 1)).map
        (fun a => min (1000 * 2 ^ a) 10000) ∧
    (∀ i, i + 1 < (executeWithRetry retryConfig outcomes).attemptsUsed →
      ∃ e, outcomes i = .error e ∧ isRetryableError (categorizeError e) = true) ∧
    (∀ i e, i < (executeWithRetry retryConfig outcomes).attemptsUsed →
      outcomes i = .error e → isRetryableError (categorizeError e) = true → i < 3 →
      i + 1 < (executeWithRetry retryConfig outcomes).attemptsUsed) ∧
    (∀ e, outcomes 0 = .error e → isRetryableError (categorizeError e) = false →
      executeWithRetry retryConfig outcomes = ⟨.error e, 1, []⟩) ∧
    (∀ e, (executeWithRetry retryConfig outcomes).result = .error e →
      outcomes ((executeWithRetry retryConfig outcomes).attemptsUsed - 1) = .error e ∧
      (isRetryableError (categorizeError e) = false ∨
        (executeWithRetry retryConfig outcomes).attemptsUsed = 4)) ∧
    categorizeError ⟨true, false, some 401⟩ = .authenticationError ∧
    categorizeError ⟨true, false, some 403⟩ = .authenticationError ∧
    categorizeError ⟨true, false, some 404⟩ = .notFoundError ∧
    categorizeError ⟨true, false, some 429⟩ = .rateLimitError ∧
    isRetryableError .authenticationError = false ∧
    isRetryableError .notFoundError = false ∧
    isRetryableError .unknownError = false ∧
    isRetryableError .networkError = true ∧
    isRetryableError .timeoutError = true ∧
    isRetryableError .rateLimitError = true ∧
    isRetryableError .apiError = true := by
  refine ⟨rfl, rfl, fun attempt => rfl, ?_, ?_, ?_, ?_, ?_, ?_,
    rfl, rfl, rfl, rfl, rfl, rfl, rfl, rfl, rfl, rfl, rfl⟩
  · exact runAttempts_attempts_ub retryConfig outcomes retryConfig.maxRetries 0
  · have hd := runAttempts_delays retryConfig outcomes retryConfig.maxRetries 0
    rw [show (executeWithRetry retryConfig outcomes).delays =
      (runAttempts retryConfig outcomes 0 retryConfig.maxRetries).delays from rfl, hd]
    rw [show (runAttempts retryConfig outcomes 0 retryConfig.maxRetries).attemptsUsed - 0 - 1 =
      (executeWithRetry retryConfig outcomes).attemptsUsed - 1 from rfl]
    rw [← List.range_eq_range']
    rfl
  · intro i hi
    exact runAttempts_nonfinal_retryable retryConfig outcomes retryConfig.maxRetries 0 i
      (Nat.zero_le i) hi
  · intro i e hi ho hre hmax
    exact runAttempts_retryable_retried retryConfig outcomes retryConfig.maxRetries 0 rfl i e
      (Nat.zero_le i) hi ho hre hmax
  · intro e ho hre
    show runAttempts retryConfig outcomes 0 retryConfig.maxRetries = ⟨.error e, 1, []⟩
    simp [retryConfig, runAttempts, ho, hre]
  · intro e he
    exact (runAttempts_final retryConfig outcomes retryConfig.maxRetries 0 rfl).2 e he

/-- An always-rate-limited call sequence. -/
def retryW : Nat → Except JsError Nat :=
  fun _ => .error ⟨true, false, some 429⟩

/-- Witness for C5: under permanent 429 responses the run makes exactly
4 attempts with delays 1000, 2000, 4000 ms, and every non-final attempt
failed retryably. -/
theorem executeWithRetry_spec_witness :
    (executeWithRetry retryConfig retryW =
      ⟨.error ⟨true, false, some 429⟩, 4, [1000, 2000, 4000]⟩) ∧
    (∀ i, i + 1 < (executeWithRetry retryConfig retryW).attemptsUsed →
      ∃ e, retryW i = .error e ∧ isRetryableError (categorizeError e) = true) :=
  ⟨by decide, (executeWithRetry_spec retryW).2.2.2.2.2.1⟩

/-- Counterexample for claim C8: a `CacheManager` constructed with a TTL
of 60 seconds produces, outside development mode, the header
`public, max-age=60, immutable` — the advertised max-age equals the
constructed TTL and is below one hour, so the claim's "max-age of at
least 3600 seconds ... whatever TTL it was constructed with" fails. -/
theorem getCacheHeaders_maxAge_counterexample :
    (getCacheHeaders id (fun _ => "") 60 "gd" false none 0).cacheControl =
      "public, max-age=60, immutable" ∧ ¬ (3600 ≤ 60) := by
  constructor
  · rfl
  · decide

/-- Claim C8 (amended): in development mode `getCacheHeaders` returns
`no-cache, no-store, must-revalidate` (caching disabled via `no-store`);
in non-development mode it returns `public, max-age=<ttl>, immutable`
where `<ttl>` is the TTL the manager was constructed with — so the
advertised max-age is at least one hour exactly when the TTL is, which
holds for the default TTL of 86400 seconds (24 h). -/
theorem getCacheHeaders_cacheControl (hashHex : String → String)
    (stringify : IconSetModel → String) (ttl : Nat) (ns : String)
    (cached : Option IconSetModel) (now : Nat) :
    ((getCacheHeaders hashHex stringify ttl ns true cached now).cacheControl =
      "no-cache, no-store, must-revalidate" ∧
      strContains (getCacheHeaders hashHex stringify ttl ns true cached now).cacheControl
        "no-store" = true) ∧
    (getCacheHeaders hashHex stringify ttl ns false cached now).cacheControl =
      "public, max-age=" ++ toString ttl ++ ", immutable" ∧
    (3600 ≤ ttl →
      ∃ maxAge, (getCacheHeaders hashHex stringify ttl ns false cached now).cacheControl =
        "public, max-age=" ++ toString maxAge ++ ", immutable" ∧ 3600 ≤ maxAge) ∧
    3600 ≤ defaultCacheTtl := by
  refine ⟨⟨rfl, ?_⟩, rfl, ?_, by decide⟩
  · show strContains "no-cache, no-store, must-revalidate" "no-store" = true
    decide
  · intro h
    exact ⟨ttl, rfl, h⟩

/-- Witness for C8 at the default TTL: development mode disables
caching and production mode advertises `max-age=86400`. -/
theorem getCacheHeaders_cacheControl_witness :
    strContains (getCacheHeaders id (fun _ => "") defaultCacheTtl "gd" true none 0).cacheControl
      "no-store" = true ∧
    (getCacheHeaders id (fun _ => "") defaultCacheTtl "gd" false none 0).cacheControl =
      "public, max-age=86400, immutable" ∧
    (∃ maxAge, (getCacheHeaders id (fun _ => "") defaultCacheTtl "gd" false none 0).cacheControl =
      "public, max-age=" ++ toString maxAge ++ ", immutable" ∧ 3600 ≤ maxAge) := by
  have h := getCacheHeaders_cacheControl id (fun _ => "") defaultCacheTtl "gd" none 0
  exact ⟨h.1.2, by decide, h.2.2.1 (by decide)⟩

/-! ## Canonicalizer lemmas -/

theorem backfillElem_tag (e : SvgElem) : (backfillElem e).tag = e.tag := by
  unfold backfillElem
  split <;> rfl

theorem backfillElem_attrs_isEmpty (e : SvgElem) :
    (backfillElem e).attrs.isEmpty = e.attrs.isEmpty := by
  unfold backfillElem
  split
  next h =>
    simp only [Bool.and_eq_true, decide_eq_true_eq] at h
    have hne : e.attrs.isEmpty = false := by
      cases hie : e.attrs.isEmpty
      · rfl
      · exact absurd hie h.1.1.2
    simp [hne]
  next => rfl

theorem map_attrs_isEmpty (l : List SvgAttr) (f : SvgAttr → SvgAttr) :
    (l.map f).isEmpty = l.isEmpty := by
  cases l <;> rfl

theorem any_map_eq {α β : Type} (l : List α) (f : α → β) (p : β → Bool) (q : α → Bool)
    (h : ∀ a, p (f a) = q a) : (l.map f).any p = l.any q := by
  induction l with
  | nil => rfl
  | cons x t ih => simp only [List.map_cons, List.any_cons, h, ih]

/-- The per-element renderable-content predicate of `hasValidPath`. -/
def detectablePrim (e : SvgElem) : Bool :=
  renderablePrimTags.contains e.tag && ¬ e.attrs.isEmpty

theorem hasValidPath_eq_any (d : SvgDoc) : hasValidPath d = d.body.any detectablePrim := rfl

theorem hasValidPath_replaceColors (d : SvgDoc) :
    hasValidPath (replaceColorsWithCurrentColor d) = hasValidPath d := by
  simp only [hasValidPath_eq_any, replaceColorsWithCurrentColor]
  exact any_map_eq d.body _ detectablePrim detectablePrim
    (fun e => by simp only [detectablePrim, map_attrs_isEmpty])

theorem hasValidPath_backfill (d : SvgDoc) :
    hasValidPath { d with body := d.body.map backfillElem } = hasValidPath d := by
  simp only [hasValidPath_eq_any]
  exact any_map_eq d.body backfillElem detectablePrim detectablePrim
    (fun e => by
      simp only [detectablePrim, backfillElem_tag, backfillElem_attrs_isEmpty])

/-- In the stroke branch the backfill and colour passes change no tag
and empty no attribute list, so renderable-content detection is stable. -/
theorem hasValidPath_optimize_stroke (svgo : SvgDoc → Except String SvgDoc) (d : SvgDoc)
    (h : docHasStrokeEq d = true) :
    hasValidPath (optimizeSVG svgo d) = hasValidPath d := by
  simp only [optimizeSVG, h, if_true]
  rw [hasValidPath_replaceColors, hasValidPath_backfill]

theorem hasPrimitiveTag_of_hasValidPath (d : SvgDoc) (h : hasValidPath d = true) :
    hasPrimitiveTag d = true := by
  rw [hasValidPath_eq_any] at h
  obtain ⟨e, he, hp⟩ := List.any_eq_true.mp h
  refine List.any_eq_true.mpr ⟨e, he, ?_⟩
  exact ((Bool.and_eq_true _ _).mp hp).1

/-- A failing parse never writes the current-icon family: `addIcon`
throws before `saveIcon` in every branch. -/
theorem addIcon_parse_error_icons {σ ε : Type} (parse : σ → Except ε IconData)
    (st : StoreState) (ns name : String) (svg : σ) (opt env : Option String) (now : Nat)
    (e : ε) (hp : parse svg = .error e) :
    (addIcon parse st ns name svg opt env now).1.icons = st.icons := by
  unfold addIcon
  cases hex : readIcon st ns name with
  | none => simp [hp]
  | some ex =>
    by_cases hstrat : resolveStrategy opt env = "reject"
    · simp [hstrat]
    · simp only [hstrat, if_false, hp]
      split <;> rfl

/-- The identity optimizer (svgo succeeding without structural change). -/
def svgoIdW : SvgDoc → Except String SvgDoc := fun d => .ok d

/-- `<svg viewBox="0 0 24 24"><path/></svg>`: a bare self-closing
primitive with no attributes. -/
def primBareDoc : SvgDoc := ⟨[⟨"viewBox", "0 0 24 24"⟩], [⟨"path", []⟩]⟩

/-- `<svg viewBox="0 0 24 24"><g id="a"/></svg>`: no primitive at all. -/
def primFreeDoc : SvgDoc := ⟨[⟨"viewBox", "0 0 24 24"⟩], [⟨"g", [⟨"id", "a"⟩]⟩]⟩

/-- `<svg viewBox="0 0 24 24"><path d="M0 0L10 10"/></svg>`. -/
def pathDoc : SvgDoc := ⟨[⟨"viewBox", "0 0 24 24"⟩], [⟨"path", [⟨"d", "M0 0L10 10"⟩]⟩]⟩

/-- Counterexample for claim C6: the input
`<svg viewBox="0 0 24 24"><path/></svg>` passes basic SVG validation and
contains the renderable primitive `path`, yet `parseSVG` fails with
`NO_RENDERABLE_CONTENT`: the detection regex `/<path[\s>]/` requires
whitespace or `>` after the tag name, which a bare self-closing
`<path/>` does not provide. -/
theorem parseSVG_bare_primitive_counterexample :
    validateSVG (renderDoc primBareDoc) = true ∧
    hasPrimitiveTag primBareDoc = true ∧
    parseSVG svgoIdW primBareDoc = .error .noRenderableContent :=
  ⟨by decide, by decide, by decide⟩

/-- Claim C6 (amended): for any input that passes basic SVG validation,
assuming the external optimizer preserves renderable-content
detectability, (a) an input containing none of the renderable primitive
tags fails with `NO_RENDERABLE_CONTENT`, and no current icon is ever
written by an `addIcon` call using this parser on it; (b) an input with
a detectable primitive — a primitive tag followed by whitespace or `>`,
i.e. carrying at least one attribute in this rendering — never takes
that failure branch and parses successfully (an attribute-less
self-closing primitive such as `<path/>` is not detected, see the
counterexample). -/
theorem parseSVG_renderable_content (svgo : SvgDoc → Except String SvgDoc) (d : SvgDoc)
    (hsvgo : ∀ r, svgo d = .ok r → hasValidPath r = hasValidPath d)
    (hvalid : validateSVG (renderDoc d) = true) :
    (hasPrimitiveTag d = false →
      parseSVG svgo d = .error .noRenderableContent ∧
      ∀ (st : StoreState) (ns name : String) (opt env : Option String) (now : Nat),
        (addIcon (parseSVG svgo) st ns name d opt env now).1.icons = st.icons) ∧
    (hasValidPath d = true →
      ∃ iconData, parseSVG svgo d = .ok iconData) := by
  have hopt : hasValidPath (optimizeSVG svgo d) = hasValidPath d := by
    by_cases hs : docHasStrokeEq d = true
    · exact hasValidPath_optimize_stroke svgo d hs
    · simp only [optimizeSVG, hs, if_false, Bool.false_eq_true]
      cases hr : svgo d with
      | ok r =>
        rw [hasValidPath_replaceColors]
        exact hsvgo r hr
      | error msg => rfl
  constructor
  · intro hnone
    have hvp : hasValidPath d = false := by
      cases hv : hasValidPath d
      · rfl
      · rw [hasPrimitiveTag_of_hasValidPath d hv] at hnone
        exact absurd hnone (by simp)
    have herr : parseSVG svgo d = .error .noRenderableContent := by
      simp only [parseSVG, hvalid, hopt, hvp]
      simp
    refine ⟨herr, ?_⟩
    intro st ns name opt env now
    exact addIcon_parse_error_icons (parseSVG svgo) st ns name d opt env now
      .noRenderableContent herr
  · intro hvp
    simp only [parseSVG, hvalid, hopt, hvp]
    simp

/-- Witness for C6: the primitive-free `<svg viewBox="0 0 24 24"><g id="a"/></svg>`
fails with `NO_RENDERABLE_CONTENT` and writes nothing through `addIcon`,
while `<svg viewBox="0 0 24 24"><path d="M0 0L10 10"/></svg>` parses
successfully. -/
theorem parseSVG_renderable_content_witness :
    (parseSVG svgoIdW primFreeDoc = .error .noRenderableContent ∧
      (addIcon (parseSVG svgoIdW) stW "gd" "home" primFreeDoc none none 300).1.icons =
        stW.icons) ∧
    (∃ iconData, parseSVG svgoIdW pathDoc = .ok iconData) := by
  have h1 := parseSVG_renderable_content svgoIdW primFreeDoc
    (fun r h => by rw [← Except.ok.inj h]) (by decide)
  have h2 := parseSVG_renderable_content svgoIdW pathDoc
    (fun r h => by rw [← Except.ok.inj h]) (by decide)
  have hfst := h1.1 (by decide)
  exact ⟨⟨hfst.1, hfst.2 stW "gd" "home" none none 300⟩, h2.2 (by decide)⟩

/-- `<svg><rect fill="red"/></svg>`: a fill-based icon with a
hard-coded colour. -/
def fillRedDoc : SvgDoc := ⟨[], [⟨"rect", [⟨"fill", "red"⟩]⟩]⟩

/-- An optimizer call that throws. -/
def svgoFailW : SvgDoc → Except String SvgDoc := fun _ => .error "SVGO failed"

/-- Counterexample for claim C7: on a fill-based input (no stroke
attribute anywhere) whose svgo optimization throws, `optimizeSVG`
returns the original input unmodified, so the hard-coded `fill="red"`
survives canonicalization into the stored body — not every hard-coded
colour is rewritten to `currentColor`. -/
theorem replaceColors_skipped_on_svgo_failure_counterexample :
    docHasStrokeEq fillRedDoc = false ∧
    optimizeSVG svgoFailW fillRedDoc = fillRedDoc ∧
    (parseSVG svgoFailW fillRedDoc = .ok { body := "<rect fill=\"red\"/>" } ∧
      strContains "<rect fill=\"red\"/>" "fill=\"red\"" = true) :=
  ⟨by decide, by decide, by decide, by decide⟩

/-- Claim C7 (amended): the colour rewrite `stroke/fill="..." ↦
currentColor` (values beginning with `none`/`currentColor`
case-insensitively are preserved, in particular the exact values `none`
and `currentColor`) is applied on the stroke-based path — which also
backfills `fill="none"` onto every shape element that declares a stroke
but no fill — and on the svgo-success path; when svgo throws on a
fill-based input the original input passes through unmodified (see the
counterexample). -/
theorem optimizeSVG_color_normalization (svgo : SvgDoc → Except String SvgDoc) (d : SvgDoc) :
    (colorValueProtected "none" = true ∧ colorValueProtected "currentColor" = true) ∧
    (∀ a : SvgAttr,
      ((strEndsWith (jsToLowerStr a.name) "stroke" ||
          strEndsWith (jsToLowerStr a.name) "fill") = true →
        colorValueProtected a.value = false →
        replaceColorAttr a = ⟨a.name, "currentColor"⟩) ∧
      (colorValueProtected a.value = true → replaceColorAttr a = a)) ∧
    (docHasStrokeEq d = true →
      (∀ a ∈ d.rootAttrs, replaceColorAttr a ∈ (optimizeSVG svgo d).rootAttrs) ∧
      ∀ e ∈ d.body, ∃ e' ∈ (optimizeSVG svgo d).body, e'.tag = e.tag ∧
        (∀ a ∈ e.attrs, replaceColorAttr a ∈ e'.attrs) ∧
        (backfillTags.contains (jsToLowerStr e.tag) = true →
          (∃ a ∈ e.attrs, a.name = "stroke") →
          attrsHaveFillDecl e.attrs = false →
          (⟨"fill", "none"⟩ : SvgAttr) ∈ e'.attrs)) ∧
    (docHasStrokeEq d = false → ∀ r, svgo d = .ok r →
      optimizeSVG svgo d = replaceColorsWithCurrentColor r) := by
  refine ⟨⟨by decide, by decide⟩, ?_, ?_, ?_⟩
  · intro a
    constructor
    · intro hname hprot
      unfold replaceColorAttr
      rcases Bool.or_eq_true_iff.mp hname with hs | hf
      · rw [hs, hprot]
        simp
      · by_cases hs : strEndsWith (jsToLowerStr a.name) "stroke" = true
        · rw [hs, hprot]; simp
        · rw [Bool.eq_false_iff.mpr hs, hf, hprot]
          simp
    · intro hprot
      unfold replaceColorAttr
      rw [hprot]
      simp
  · intro hstroke
    have hshape : optimizeSVG svgo d =
        replaceColorsWithCurrentColor { d with body := d.body.map backfillElem } := by
      simp [optimizeSVG, hstroke]
    constructor
    · intro a ha
      rw [hshape]
      exact List.mem_map_of_mem replaceColorAttr ha
    · intro e he
      rw [hshape]
      refine ⟨⟨(backfillElem e).tag, (backfillElem e).attrs.map replaceColorAttr⟩, ?_, ?_, ?_, ?_⟩
      · show _ ∈ ((d.body.map backfillElem).map
          (fun e => { e with attrs := e.attrs.map replaceColorAttr }) : List SvgElem)
        exact List.mem_map_of_mem _ (List.mem_map_of_mem backfillElem he)
      · exact backfillElem_tag e
      · intro a ha
        have hmem : a ∈ (backfillElem e).attrs := by
          unfold backfillElem
          split
          · exact List.mem_cons_of_mem _ ha
          · exact ha
        exact List.mem_map_of_mem replaceColorAttr hmem
      · intro htag hstrokeAttr hnofill
        obtain ⟨a, ha, hname⟩ := hstrokeAttr
        have hcond : (backfillTags.contains (jsToLowerStr e.tag) && ¬ e.attrs.isEmpty &&
            attrsTextContainsStroke e.attrs && ¬ attrsHaveFillDecl e.attrs) = true := by
          have hne : e.attrs.isEmpty = false := by
            cases he' : e.attrs
            · rw [he'] at ha; exact absurd ha (List.not_mem_nil a)
            · rfl
          have hstr : attrsTextContainsStroke e.attrs = true := by
            refine List.any_eq_true.mpr ⟨a, ha, ?_⟩
            have hc : strContains a.name "stroke" = true := by rw [hname]; decide
            rw [hc]
            rfl
          rw [htag, hne, hstr, hnofill]
          decide
        have hbf : backfillElem e = ⟨e.tag, ⟨"fill", "none"⟩ :: e.attrs⟩ := by
          unfold backfillElem
          rw [if_pos hcond]
        rw [hbf]
        refine List.mem_map.mpr ⟨⟨"fill", "none"⟩, List.mem_cons_self _ _, ?_⟩
        decide
  · intro hfill r hr
    simp [optimizeSVG, hfill, hr]

/-- The stroke-based doc for the C7 witness:
`<svg><path d="M0 0" stroke="red"/><circle cx="5" stroke="#f00" fill="none"/></svg>`. -/
def strokeDocW : SvgDoc :=
  ⟨[], [⟨"path", [⟨"d", "M0 0"⟩, ⟨"stroke", "red"⟩]⟩,
        ⟨"circle", [⟨"cx", "5"⟩, ⟨"stroke", "#f00"⟩, ⟨"fill", "none"⟩]⟩]⟩

/-- Witness for C7: on the concrete stroke-based document the
canonicalized output backfills `fill="none"` onto the path, rewrites
both stroke colours to `currentColor`, and preserves the declared
`fill="none"`. -/
theorem optimizeSVG_color_normalization_witness :
    (optimizeSVG svgoIdW strokeDocW =
      ⟨[], [⟨"path", [⟨"fill", "none"⟩, ⟨"d", "M0 0"⟩, ⟨"stroke", "currentColor"⟩]⟩,
            ⟨"circle", [⟨"cx", "5"⟩, ⟨"stroke", "currentColor"⟩, ⟨"fill", "none"⟩]⟩]⟩) ∧
    (∀ e ∈ strokeDocW.body, ∃ e' ∈ (optimizeSVG svgoIdW strokeDocW).body, e'.tag = e.tag ∧
      (∀ a ∈ e.attrs, replaceColorAttr a ∈ e'.attrs) ∧
      (backfillTags.contains (jsToLowerStr e.tag) = true →
        (∃ a ∈ e.attrs, a.name = "stroke") →
        attrsHaveFillDecl e.attrs = false →
        (⟨"fill", "none"⟩ : SvgAttr) ∈ e'.attrs)) :=
  ⟨by decide, ((optimizeSVG_color_normalization svgoIdW strokeDocW).2.2.1 (by decide)).2⟩

/-! ## Sync-loop lemmas -/

theorem resolveStrategy_overwrite (env : Option String) :
    resolveStrategy (some "overwrite") env = "overwrite" := rfl

theorem addIcon_overwrite_ok {σ ε : Type} (parse : σ → Except ε IconData) (st : StoreState)
    (ns name : String) (svg : σ) (env : Option String) (now : Nat) (d : IconData)
    (hp : parse svg = .ok d) :
    (addIcon parse st ns name svg (some "overwrite") env now).2 = .ok () ∧
    readIcon (addIcon parse st ns name svg (some "overwrite") env now).1 ns name = some d ∧
    ∀ ns' name', (ns', name') ≠ (ns, name) →
      readIcon (addIcon parse st ns name svg (some "overwrite") env now).1 ns' name' =
        readIcon st ns' name' := by
  have hne : ¬ resolveStrategy (some "overwrite") env = "reject" := by
    rw [resolveStrategy_overwrite]; decide
  cases hex : readIcon st ns name with
  | some ex =>
    have hshape : addIcon parse st ns name svg (some "overwrite") env now =
        (updateMetadata (saveIcon (saveVersion st ns name ex now).1 ns name d) ns now,
          .ok ()) := by
      simp [addIcon, hex, hne, resolveStrategy_overwrite, hp]
    rw [hshape]
    refine ⟨rfl, ?_, ?_⟩
    · rw [readIcon_updateMetadata]
      exact readIcon_saveIcon_self _ ns name d
    · intro ns' name' hk
      rw [readIcon_updateMetadata, readIcon_saveIcon_ne _ _ _ _ _ _ (Ne.symm hk)]
      rfl
  | none =>
    have hshape : addIcon parse st ns name svg (some "overwrite") env now =
        (updateMetadata (saveIcon st ns name d) ns now, .ok ()) := by
      simp [addIcon, hex, hne, resolveStrategy_overwrite, hp]
    rw [hshape]
    refine ⟨rfl, ?_, ?_⟩
    · rw [readIcon_updateMetadata]
      exact readIcon_saveIcon_self _ ns name d
    · intro ns' name' hk
      rw [readIcon_updateMetadata, readIcon_saveIcon_ne _ _ _ _ _ _ (Ne.symm hk)]

theorem syncIcon_eq_ok (parse : String → Except String IconData)
    (exportFn : String → Except String String) (env : Option String) (st : StoreState)
    (cid cname ns : String) (now : Nat) (svg : String) (d : IconData)
    (he : exportFn cid = .ok svg) (hp : parse svg = .ok d) :
    syncIcon parse exportFn env st cid cname ns now =
      ((addIcon parse st ns (iconNameFor cid cname) svg (some "overwrite") env now).1,
        .ok ()) := by
  have hok := (addIcon_overwrite_ok parse st ns (iconNameFor cid cname) svg env now d hp).1
  simp only [syncIcon, he]
  rw [hok]
  rfl

theorem syncIcon_eq_error (parse : String → Except String IconData)
    (exportFn : String → Except String String) (env : Option String) (st : StoreState)
    (cid cname ns : String) (now : Nat) (msg : String)
    (he : exportFn cid = .error msg) :
    syncIcon parse exportFn env st cid cname ns now = (st, .error msg) := by
  simp [syncIcon, he]

theorem syncIcon_store_frame (parse : String → Except String IconData)
    (exportFn : String → Except String String) (env : Option String) (st : StoreState)
    (cid cname ns : String) (now : Nat) (name' : String)
    (hname : name' ≠ iconNameFor cid cname) :
    readIcon (syncIcon parse exportFn env st cid cname ns now).1 ns name' =
      readIcon st ns name' := by
  unfold syncIcon
  cases he : exportFn cid with
  | error msg => rfl
  | ok svg =>
    cases hp : parse svg with
    | error e =>
      show readIcon (addIcon parse st ns (iconNameFor cid cname) svg
        (some "overwrite") env now).1 ns name' = readIcon st ns name'
      unfold readIcon
      rw [addIcon_parse_error_icons parse st ns (iconNameFor cid cname) svg
        (some "overwrite") env now e hp]
    | ok d =>
      exact (addIcon_overwrite_ok parse st ns (iconNameFor cid cname) svg env now d hp).2.2
        ns name' (fun hk => hname (congrArg Prod.snd hk))

theorem syncLoop_store_frame (parse : String → Except String IconData)
    (exportFn : String → Except String String) (env : Option String) (ns : String)
    (times : Nat → Nat) :
    ∀ (comps : List FigmaComponent) (i : Nat) (st : StoreState) (name' : String),
      name' ∉ comps.map (fun c => iconNameFor c.id c.name) →
      readIcon (syncLoop parse exportFn env ns false none times comps i st).2 ns name' =
        readIcon st ns name' := by
  intro comps
  induction comps with
  | nil => intro i st name' _; rfl
  | cons c rest ih =>
    intro i st name' hnm
    simp only [List.map_cons, List.mem_cons, not_or] at hnm
    have hstep : ∀ st0, readIcon (syncIcon parse exportFn env st0 c.id c.name ns (times i)).1
        ns name' = readIcon st0 ns name' :=
      fun st0 => syncIcon_store_frame parse exportFn env st0 c.id c.name ns (times i)
        name' hnm.1
    simp only [syncLoop, Bool.false_and, Bool.false_eq_true, if_false]
    cases hs : syncIcon parse exportFn env st c.id c.name ns (times i) with
    | mk st' res =>
      have hfr : readIcon st' ns name' = readIcon st ns name' := by
        have := hstep st
        rw [hs] at this
        exact this
      cases res with
      | ok u =>
        show readIcon (syncLoop parse exportFn env ns false none times rest (i + 1) st').2
          ns name' = readIcon st ns name'
        rw [ih (i + 1) st' name' (by simpa using hnm.2), hfr]
      | error m =>
        show readIcon (syncLoop parse exportFn env ns false none times rest (i + 1) st').2
          ns name' = readIcon st ns name'
        rw [ih (i + 1) st' name' (by simpa using hnm.2), hfr]

theorem syncLoop_all_ok (parse : String → Except String IconData)
    (exportFn : String → Except String String) (env : Option String) (ns : String)
    (times : Nat → Nat) (svgF : FigmaComponent → String) (dataF : FigmaComponent → IconData) :
    ∀ comps : List FigmaComponent,
      (∀ c ∈ comps, exportFn c.id = .ok (svgF c) ∧ parse (svgF c) = .ok (dataF c)) →
      (∀ c1 ∈ comps, ∀ c2 ∈ comps,
        iconNameFor c1.id c1.name = iconNameFor c2.id c2.name → c1 = c2) →
      comps.Nodup →
      ∀ i st,
        (syncLoop parse exportFn env ns false none times comps i st).1 =
          ⟨comps.length, 0, []⟩ ∧
        ∀ c ∈ comps,
          readIcon (syncLoop parse exportFn env ns false none times comps i st).2
            ns (iconNameFor c.id c.name) = some (dataF c) := by
  intro comps
  induction comps with
  | nil =>
    intro _ _ _ i st
    exact ⟨rfl, by simp⟩
  | cons c rest ih =>
    intro hsucc hinj hnd i st
    obtain ⟨he, hp⟩ := hsucc c (List.mem_cons_self c rest)
    have heq := syncIcon_eq_ok parse exportFn env st c.id c.name ns (times i)
      (svgF c) (dataF c) he hp
    have hihyp : ∀ c' ∈ rest, exportFn c'.id = .ok (svgF c') ∧
        parse (svgF c') = .ok (dataF c') :=
      fun c' hc' => hsucc c' (List.mem_cons_of_mem c hc')
    have hinj' : ∀ c1 ∈ rest, ∀ c2 ∈ rest,
        iconNameFor c1.id c1.name = iconNameFor c2.id c2.name → c1 = c2 :=
      fun c1 h1 c2 h2 => hinj c1 (List.mem_cons_of_mem c h1) c2 (List.mem_cons_of_mem c h2)
    have hnd' : rest.Nodup := (List.nodup_cons.mp hnd).2
    have hcnotin : c ∉ rest := (List.nodup_cons.mp hnd).1
    set st' := (addIcon parse st ns (iconNameFor c.id c.name) (svgF c)
      (some "overwrite") env (times i)).1 with hst'
    have hih := ih hihyp hinj' hnd' (i + 1) st'
    have hloop : syncLoop parse exportFn env ns false none times (c :: rest) i st =
        (⟨(syncLoop parse exportFn env ns false none times rest (i + 1) st').1.success + 1,
          (syncLoop parse exportFn env ns false none times rest (i + 1) st').1.failed,
          (syncLoop parse exportFn env ns false none times rest (i + 1) st').1.errors⟩,
         (syncLoop parse exportFn env ns false none times rest (i + 1) st').2) := by
      simp only [syncLoop, Bool.false_and, Bool.false_eq_true, if_false, heq]
    rw [hloop]
    constructor
    · rw [hih.1]
      simp [List.length_cons]
    · intro c' hc'
      rcases List.mem_cons.mp hc' with hceq | hcr
      · subst hceq
        have hnotin : iconNameFor c'.id c'.name ∉
            rest.map (fun x => iconNameFor x.id x.name) := by
          intro hmem
          obtain ⟨c2, hc2, hname⟩ := List.mem_map.mp hmem
          have : c2 = c' := hinj c2 (List.mem_cons_of_mem c' hc2) c'
            (List.mem_cons_self c' rest) hname
          rw [this] at hc2
          exact hcnotin hc2
        show readIcon (syncLoop parse exportFn env ns false none times rest (i + 1) st').2
          ns (iconNameFor c'.id c'.name) = some (dataF c')
        rw [syncLoop_store_frame parse exportFn env ns times rest (i + 1) st'
          (iconNameFor c'.id c'.name) hnotin]
        exact (addIcon_overwrite_ok parse st ns (iconNameFor c'.id c'.name) (svgF c')
          env (times i) (dataF c') hp).2.1
      · exact hih.2 c' hcr

theorem syncLoop_one_failure (parse : String → Except String IconData)
    (exportFn : String → Except String String) (env : Option String) (ns : String)
    (times : Nat → Nat) (svgF : FigmaComponent → String) (dataF : FigmaComponent → IconData)
    (k : FigmaComponent) (m : String) (hkfail : exportFn k.id = .error m) :
    ∀ comps : List FigmaComponent, k ∈ comps →
      (∀ c ∈ comps, c ≠ k → exportFn c.id = .ok (svgF c) ∧ parse (svgF c) = .ok (dataF c)) →
      (∀ c1 ∈ comps, ∀ c2 ∈ comps,
        iconNameFor c1.id c1.name = iconNameFor c2.id c2.name → c1 = c2) →
      comps.Nodup →
      ∀ i st,
        (syncLoop parse exportFn env ns false none times comps i st).1 =
          ⟨comps.length - 1, 1, [(k.id, m)]⟩ ∧
        ∀ c ∈ comps, c ≠ k →
          readIcon (syncLoop parse exportFn env ns false none times comps i st).2
            ns (iconNameFor c.id c.name) = some (dataF c) := by
  intro comps
  induction comps with
  | nil =>
    intro hk
    exact absurd hk (List.not_mem_nil k)
  | cons c rest ih =>
    intro hk hsucc hinj hnd i st
    have hnd' : rest.Nodup := (List.nodup_cons.mp hnd).2
    have hcnotin : c ∉ rest := (List.nodup_cons.mp hnd).1
    by_cases hck : c = k
    · subst hck
      have heq := syncIcon_eq_error parse exportFn env st c.id c.name ns (times i) m hkfail
      have hallok : ∀ c' ∈ rest, exportFn c'.id = .ok (svgF c') ∧
          parse (svgF c') = .ok (dataF c') := by
        intro c' hc'
        refine hsucc c' (List.mem_cons_of_mem c hc') ?_
        intro heqk
        rw [heqk] at hc'
        exact hcnotin hc'
      have hinj' : ∀ c1 ∈ rest, ∀ c2 ∈ rest,
          iconNameFor c1.id c1.name = iconNameFor c2.id c2.name → c1 = c2 :=
        fun c1 h1 c2 h2 => hinj c1 (List.mem_cons_of_mem c h1) c2 (List.mem_cons_of_mem c h2)
      have hrest := syncLoop_all_ok parse exportFn env ns times svgF dataF rest
        hallok hinj' hnd' (i + 1) st
      have hloop : syncLoop parse exportFn env ns false none times (c :: rest) i st =
          (⟨(syncLoop parse exportFn env ns false none times rest (i + 1) st).1.success,
            (syncLoop parse exportFn env ns false none times rest (i + 1) st).1.failed + 1,
            (c.id, m) ::
              (syncLoop parse exportFn env ns false none times rest (i + 1) st).1.errors⟩,
           (syncLoop parse exportFn env ns false none times rest (i + 1) st).2) := by
        simp only [syncLoop, Bool.false_and, Bool.false_eq_true, if_false, heq]
      rw [hloop]
      constructor
      · rw [hrest.1]
        simp [List.length_cons]
      · intro c' hc' hc'k
        rcases List.mem_cons.mp hc' with hceq | hcr
        · exact absurd hceq hc'k
        · exact hrest.2 c' hcr
    · have hkrest : k ∈ rest := by
        rcases List.mem_cons.mp hk with h1 | h1
        · exact absurd h1.symm hck
        · exact h1
      obtain ⟨he, hp⟩ := hsucc c (List.mem_cons_self c rest) hck
      have heq := syncIcon_eq_ok parse exportFn env st c.id c.name ns (times i)
        (svgF c) (dataF c) he hp
      set st' := (addIcon parse st ns (iconNameFor c.id c.name) (svgF c)
        (some "overwrite") env (times i)).1 with hst'
      have hihyp : ∀ c' ∈ rest, c' ≠ k → exportFn c'.id = .ok (svgF c') ∧
          parse (svgF c') = .ok (dataF c') :=
        fun c' hc' => hsucc c' (List.mem_cons_of_mem c hc')
      have hinj' : ∀ c1 ∈ rest, ∀ c2 ∈ rest,
          iconNameFor c1.id c1.name = iconNameFor c2.id c2.name → c1 = c2 :=
        fun c1 h1 c2 h2 => hinj c1 (List.mem_cons_of_mem c h1) c2 (List.mem_cons_of_mem c h2)
      have hih := ih hkrest hihyp hinj' hnd' (i + 1) st'
      have hloop : syncLoop parse exportFn env ns false none times (c :: rest) i st =
          (⟨(syncLoop parse exportFn env ns false none times rest (i + 1) st').1.success + 1,
            (syncLoop parse exportFn env ns false none times rest (i + 1) st').1.failed,
            (syncLoop parse exportFn env ns false none times rest (i + 1) st').1.errors⟩,
           (syncLoop parse exportFn env ns false none times rest (i + 1) st').2) := by
        simp only [syncLoop, Bool.false_and, Bool.false_eq_true, if_false, heq]
      rw [hloop]
      have hrestlen : 1 ≤ rest.length := by
        cases rest
        · exact absurd hkrest (List.not_mem_nil k)
        · simp
      constructor
      · rw [hih.1]
        simp only [List.length_cons, SyncResult.mk.injEq, and_true, true_and]
        omega
      · intro c' hc' hc'k
        rcases List.mem_cons.mp hc' with hceq | hcr
        · subst hceq
          have hnotin : iconNameFor c'.id c'.name ∉
              rest.map (fun x => iconNameFor x.id x.name) := by
            intro hmem
            obtain ⟨c2, hc2, hname⟩ := List.mem_map.mp hmem
            have hc2eq : c2 = c' := hinj c2 (List.mem_cons_of_mem c' hc2) c'
              (List.mem_cons_self c' rest) hname
            rw [hc2eq] at hc2
            exact hcnotin hc2
          show readIcon (syncLoop parse exportFn env ns false none times rest (i + 1) st').2
            ns (iconNameFor c'.id c'.name) = some (dataF c')
          rw [syncLoop_store_frame parse exportFn env ns times rest (i + 1) st'
            (iconNameFor c'.id c'.name) hnotin]
          exact (addIcon_overwrite_ok parse st ns (iconNameFor c'.id c'.name) (svgF c')
            env (times i) (dataF c') hp).2.1
        · exact hih.2 c' hcr hc'k

/-- Claim C3: for a connected reconciliation run (full mode) over
discovered components `comps` in which exactly one component `k` fails
its export terminally and every other component exports and parses
successfully (with pairwise-distinct derived icon names), `syncAllIcons`
returns `failed = 1`, `success = N - 1`, records exactly `k`'s id and
error message in `errors`, and every other component's icon is stored
and retrievable via `get` — one component's failure aborts nothing. -/
theorem syncAllIcons_failure_isolation (parse : String → Except String IconData)
    (exportFn : String → Except String String) (env : Option String) (st : StoreState)
    (ns : String) (times : Nat → Nat) (comps : List FigmaComponent)
    (k : FigmaComponent) (m : String) (svgF : FigmaComponent → String)
    (dataF : FigmaComponent → IconData)
    (hk : k ∈ comps) (hkfail : exportFn k.id = .error m)
    (hsucc : ∀ c ∈ comps, c ≠ k →
      exportFn c.id = .ok (svgF c) ∧ parse (svgF c) = .ok (dataF c))
    (hinj : ∀ c1 ∈ comps, ∀ c2 ∈ comps,
      iconNameFor c1.id c1.name = iconNameFor c2.id c2.name → c1 = c2)
    (hnd : comps.Nodup) :
    ∃ stFin, syncAllIcons parse exportFn true (.ok comps) env st ns false times =
        .ok (⟨comps.length - 1, 1, [(k.id, m)]⟩, stFin) ∧
      ∀ c ∈ comps, c ≠ k →
        readIcon stFin ns (iconNameFor c.id c.name) = some (dataF c) := by
  have hlen : ¬ comps.length = 0 := by
    cases comps
    · exact absurd hk (List.not_mem_nil k)
    · simp
  have hshape : syncAllIcons parse exportFn true (.ok comps) env st ns false times =
      .ok (syncLoop parse exportFn env ns false none times comps 0 st) := by
    simp [syncAllIcons, hlen]
  have hl := syncLoop_one_failure parse exportFn env ns times svgF dataF k m hkfail comps
    hk hsucc hinj hnd 0 st
  refine ⟨(syncLoop parse exportFn env ns false none times comps 0 st).2, ?_, hl.2⟩
  rw [hshape,
    show syncLoop parse exportFn env ns false none times comps 0 st =
      ((syncLoop parse exportFn env ns false none times comps 0 st).1,
        (syncLoop parse exportFn env ns false none times comps 0 st).2) from rfl,
    hl.1]

/-- Component `icon-home`, exporting successfully. -/
def compA : FigmaComponent := ⟨"comp-1", "icon-home", "COMPONENT", none, none⟩

/-- Component `icon-search`, whose export always fails. -/
def compB : FigmaComponent := ⟨"comp-2", "icon-search", "COMPONENT", none, none⟩

/-- An export oracle failing exactly on `comp-2`. -/
def exportW : String → Except String String :=
  fun cid => if cid = "comp-2" then .error "Export failed" else .ok ("svg-" ++ cid)

/-- Witness for C3: over the two components above, the run reports one
success and one failure, records `comp-2`'s error, and `home` is stored. -/
theorem syncAllIcons_failure_isolation_witness :
    ∃ stFin, syncAllIcons parseW exportW true (.ok [compA, compB]) none emptyStore "gd"
        false (fun i => 1000 + i) =
        .ok (⟨1, 1, [("comp-2", "Export failed")]⟩, stFin) ∧
      ∀ c ∈ [compA, compB], c ≠ compB →
        readIcon stFin "gd" (iconNameFor c.id c.name) =
          some { body := "svg-" ++ c.id } := by
  have h := syncAllIcons_failure_isolation parseW exportW none emptyStore "gd"
    (fun i => 1000 + i) [compA, compB] compB "Export failed"
    (fun c => "svg-" ++ c.id) (fun c => { body := "svg-" ++ c.id })
    (by decide) (by decide) (by decide) (by decide) (by decide)
  exact h

/-- Claim C4: a connected run whose component discovery fails does not
throw: it returns a `SyncResult` recording the fetch failure under the
id `N/A` with zero successes, and the store it returns is exactly the
store it was given — no write, delete or metadata update happened. -/
theorem syncAllIcons_fetch_failure_readonly (parse : String → Except String IconData)
    (exportFn : String → Except String String) (env : Option String) (st : StoreState)
    (ns : String) (incremental : Bool) (times : Nat → Nat) (m : String) :
    syncAllIcons parse exportFn true (.error m) env st ns incremental times =
      .ok (⟨0, 0, [("N/A", "Failed to fetch components: " ++ m)]⟩, st) := by
  simp [syncAllIcons]

end Icons
